import Mathlib

/-! # db_helper: the query builder and its statement rendering

A shallow embedding of `src/db_helper.go`.  The builder is a record that the
mutators transform (state passing stands for the mutable `*QueryBuilder`);
the rendering methods are functions from the record to the SQL text.

Conventions of the embedding:

* a Go `string` is a Lean `String` (a sequence of runes);
* a Go `int` / `int64` is an `Int` in the range `[-2^63, 2^63)`; the one
  arithmetic operation of the file (`NextPage`) wraps explicitly;
* a call that panics returns `none`;
* `fmt.Sprintf` with `%s` verbs is string concatenation;
* a `float64`, whose decimal formatting lives in Go's `strconv`, is
  represented by the texts the three formatters used in the file print for it.
-/

namespace DbHelper

/-! ## Go library functions used by the file -/

/-- The rune `'` (U+0027). -/
def quote : Char := Char.ofNat 39

/-- The rune `\` (U+005C). -/
def backslash : Char := Char.ofNat 92

/-- The space rune (U+0020). -/
def space : Char := Char.ofNat 32

/-- Go function `strings.Join(elems, sep)`. -/
def Join : List String → String → String
  | [], _ => ""
  | [a], _ => a
  | a :: b :: rest, sep => a ++ sep ++ Join (b :: rest) sep

/-- Runes of `s` after every rune `old` has been replaced by the runes `new`. -/
def replaceRunes (old : Char) (new : List Char) : List Char → List Char
  | [] => []
  | c :: cs => if c = old then new ++ replaceRunes old new cs else c :: replaceRunes old new cs

/-- Go function `strings.Replace(s, old, new, -1)` for a one-rune `old`. -/
def Replace (s : String) (old : Char) (new : String) : String :=
  String.mk (replaceRunes old new.data s.data)

/-- The runes matched by the regular expression `('|\\)`: a quote or a backslash. -/
def reMatches (c : Char) : Bool := c == quote || c == backslash

/-- Runes of `re.ReplaceAllString(s, "\\$1")`: every match is replaced by a
backslash followed by the matched rune (`$1` is the first capture group). -/
def escapeRunes : List Char → List Char
  | [] => []
  | c :: cs => if reMatches c then backslash :: c :: escapeRunes cs else c :: escapeRunes cs

/-- Go call `re.ReplaceAllString(s, "\\$1")` with `re := regexp.MustCompile("('|\\\\)")`. -/
def ReplaceAllString (s : String) : String := String.mk (escapeRunes s.data)

/-- Drop the trailing runes that satisfy `p`. -/
def dropTrailing (p : Char → Bool) (l : List Char) : List Char :=
  (l.reverse.dropWhile p).reverse

/-- Go function `strings.TrimLeft(s, cutset)`: `s` without the leading runes contained in `cutset`. -/
def TrimLeft (s : String) (cutset : String) : String :=
  String.mk (s.data.dropWhile (fun c => decide (c ∈ cutset.data)))

/-- Go function `strings.TrimRight(s, cutset)`: `s` without the trailing runes contained in `cutset`. -/
def TrimRight (s : String) (cutset : String) : String :=
  String.mk (dropTrailing (fun c => decide (c ∈ cutset.data)) s.data)

/-- Go function `strings.Trim(s, cutset)`: `s` without the leading and trailing runes contained in `cutset`. -/
def Trim (s : String) (cutset : String) : String :=
  TrimRight (TrimLeft s cutset) cutset

/-- Go function `strconv.Itoa(i)`, also the `%d` and `%v` verbs on an integer: signed decimal text. -/
def Itoa (i : Int) : String :=
  if i < 0 then "-" ++ Nat.repr i.natAbs else Nat.repr i.natAbs

/-- The digit alphabet of `strconv`. -/
def digits : String := "0123456789abcdefghijklmnopqrstuvwxyz"

/-- The digit loop of `strconv.formatBits`: the digits of `u` in `base`, most significant first. -/
def formatBits (base : Nat) : Nat → Nat → List Char → List Char
  | 0, _, acc => acc
  | fuel + 1, u, acc =>
    if u < base then digits.data.getD u '0' :: acc
    else formatBits base fuel (u / base) (digits.data.getD (u % base) '0' :: acc)

/-- Go function `strconv.FormatInt(i, base)`: panics (`none`) unless `2 <= base <= 36`. -/
def FormatInt (i : Int) (base : Nat) : Option String :=
  if base < 2 ∨ base > digits.length then none
  else some ((if i < 0 then "-" else "") ++ String.mk (formatBits base (i.natAbs + 1) i.natAbs []))

/-- The ASCII branch of `strings.ToUpper`. -/
def asciiUpper (c : Char) : Char :=
  if 97 ≤ c.toNat ∧ c.toNat ≤ 122 then Char.ofNat (c.toNat - 32) else c

/-- Go function `strings.ToUpper(s)`.  An ASCII-only string has its letters `a`..`z` mapped to
`A`..`Z`; otherwise every rune goes through `unicode.ToUpper`, the case table
of Go's `unicode` package, which is the parameter `unicodeToUpper`. -/
def ToUpper (unicodeToUpper : Char → Char) (s : String) : String :=
  if s.data.all (fun c => decide (c.toNat < 128)) then String.mk (s.data.map asciiUpper)
  else String.mk (s.data.map unicodeToUpper)

/-- Split the runes on every occurrence of `sep`. -/
def splitRunes (sep : Char) : List Char → List Char → List String
  | cur, [] => [String.mk cur.reverse]
  | cur, c :: cs =>
    if c = sep then String.mk cur.reverse :: splitRunes sep [] cs else splitRunes sep (c :: cur) cs

/-- Go function `strings.Split(s, sep)` for a one-rune `sep`. -/
def Split (s : String) (sep : Char) : List String := splitRunes sep [] s.data

/-- Go function `strings.Index(s, substr)` for a one-rune `substr`: the position of its first
occurrence, or `-1`. -/
def Index (s : String) (c : Char) : Int :=
  if c ∈ s.data then (s.data.indexOf c : Int) else -1

/-- Two's-complement wrap-around of 64-bit signed arithmetic. -/
def wrapInt (x : Int) : Int := (x + 2 ^ 63) % 2 ^ 64 - 2 ^ 63

/-! ## Data model -/

/-- A `float64` value, represented by what Go prints for it: `fmtF` is
`fmt.Sprintf("%f", x)`, `fmtE` is `strconv.FormatFloat(x, 'E', -1, 64)` and
`fmtV` is `fmt.Sprintf("%v", x)`.  For `1.5` these are `1.500000`, `1.5E+00`
and `1.5`. -/
structure Float64 where
  fmtF : String
  fmtE : String
  fmtV : String
deriving DecidableEq

/-- The dynamic values (`interface{}`) a clause can carry.  The builder
inspects eight dynamic types; a value of any other type (a `bool`, `nil`, a
`[]interface{}`, ...) is `other v` with `v` the text `fmt.Sprintf("%v", _)`
prints for it. -/
inductive GoValue where
  | string (s : String)
  | int (n : Int)
  | int64 (n : Int)
  | float64 (x : Float64)
  | strings (l : List String)
  | ints (l : List Int)
  | int64s (l : List Int)
  | float64s (l : List Float64)
  | other (v : String)
deriving DecidableEq

structure QueryOrder where
  By : String
  Direction : String
deriving DecidableEq

structure QueryLimit where
  Offset : Int
  Count : Int
deriving DecidableEq

structure QueryWhere where
  Col : String
  Op : String
  Param : GoValue
deriving DecidableEq

structure QueryAdd where
  Col : String
  Param : GoValue
deriving DecidableEq

structure QuerySet where
  Col : String
  Param : GoValue
deriving DecidableEq

structure QueryBuilder where
  Table : String
  QueryFields : String
  QueryAdds : List QueryAdd
  QuerySets : List QuerySet
  QueryOrders : List QueryOrder
  QueryLimit : QueryLimit
  QueryWheres : List QueryWhere
  QueryGroup : String
deriving DecidableEq

/-- Go call `fmt.Sprintf("%v", v)`. -/
def sprintV : GoValue → String
  | .string s => s
  | .int n => Itoa n
  | .int64 n => Itoa n
  | .float64 x => x.fmtV
  | .strings l => "[" ++ Join l " " ++ "]"
  | .ints l => "[" ++ Join (l.map Itoa) " " ++ "]"
  | .int64s l => "[" ++ Join (l.map Itoa) " " ++ "]"
  | .float64s l => "[" ++ Join (l.map Float64.fmtV) " " ++ "]"
  | .other v => v

/-! ## Constructors and mutators -/

def CreateQueryBuilder (table : String) : QueryBuilder :=
  { Table := table, QueryFields := "", QueryAdds := [], QuerySets := [], QueryOrders := [],
    QueryLimit := { Offset := 0, Count := 0 }, QueryWheres := [], QueryGroup := "" }

def Add (q : QueryBuilder) (col : String) (param : GoValue) : QueryBuilder :=
  { q with QueryAdds := q.QueryAdds ++ [{ Col := col, Param := param }] }

def Set (q : QueryBuilder) (col : String) (param : GoValue) : QueryBuilder :=
  { q with QuerySets := q.QuerySets ++ [{ Col := col, Param := param }] }

def Fields (q : QueryBuilder) (fields : String) : QueryBuilder :=
  { q with QueryFields := fields }

def Group (q : QueryBuilder) (cols : String) : QueryBuilder :=
  { q with QueryGroup := cols }

def Order (q : QueryBuilder) (by_ : String) (direction : String) : QueryBuilder :=
  { q with QueryOrders := q.QueryOrders ++ [{ By := by_, Direction := direction }] }

def Limit (q : QueryBuilder) (offset : Int) (count : Int) : QueryBuilder :=
  { q with QueryLimit := { Offset := offset, Count := count } }

def NextPage (q : QueryBuilder) : QueryBuilder :=
  if q.QueryLimit.Count > 0 then
    { q with QueryLimit := { q.QueryLimit with
        Offset := wrapInt (q.QueryLimit.Offset + q.QueryLimit.Count) } }
  else q

def Where (q : QueryBuilder) (col : String) (op : String) (param : GoValue) : QueryBuilder :=
  { q with QueryWheres := q.QueryWheres ++ [{ Col := col, Op := op, Param := param }] }

/-! ## Rendering -/

/-- The value text of one addition in `ToInsertStr`. -/
def addVal (qa : QueryAdd) : String :=
  match qa.Param with
  | .string s => "'" ++ Replace s quote "\\'" ++ "'"
  | p => sprintV p

def ToInsertStr (q : QueryBuilder) : String :=
  let addColArr := q.QueryAdds.map (fun qa => "`" ++ qa.Col ++ "`")
  let addValArr := q.QueryAdds.map addVal
  "INSERT INTO `" ++ q.Table ++ "` (" ++ Join addColArr "," ++ ") VALUES(" ++ Join addValArr "," ++ ")"

/-- The items of the `[]int64` case: the loop stops at the first panic. -/
def int64Items : List Int → Option (List String)
  | [] => some []
  | n :: rest =>
    match FormatInt n 64 with
    | none => none
    | some s =>
      match int64Items rest with
      | none => none
      | some r => some (s :: r)

/-- The body of the loop of `makeWhereStr`: the text `str` of one predicate. -/
def whereItem (qw : QueryWhere) : Option String :=
  match qw.Param with
  | .strings tmpItems =>
    some ("`" ++ qw.Col ++ "` " ++ qw.Op ++ " ("
      ++ Join (tmpItems.map (fun s => "'" ++ ReplaceAllString s ++ "'")) "," ++ ")")
  | .ints tmpItems =>
    some ("`" ++ qw.Col ++ "` " ++ qw.Op ++ " (" ++ Join (tmpItems.map Itoa) "," ++ ")")
  | .int64s tmpItems =>
    match int64Items tmpItems with
    | none => none
    | some items => some ("`" ++ qw.Col ++ "` " ++ qw.Op ++ " (" ++ Join items "," ++ ")")
  | .float64s tmpItems =>
    some ("`" ++ qw.Col ++ "` " ++ qw.Op ++ " (" ++ Join (tmpItems.map Float64.fmtE) "," ++ ")")
  | .string item =>
    some ("`" ++ qw.Col ++ "` " ++ qw.Op ++ " " ++ ("'" ++ ReplaceAllString item ++ "'"))
  | .int n => some ("`" ++ qw.Col ++ "` " ++ qw.Op ++ " " ++ Itoa n)
  | .int64 n => some ("`" ++ qw.Col ++ "` " ++ qw.Op ++ " " ++ Itoa n)
  | .float64 x => some ("`" ++ qw.Col ++ "` " ++ qw.Op ++ " " ++ x.fmtF)
  | .other _ => some ""

/-- The loop of `makeWhereStr`: `whereArr`, or `none` when an iteration panics. -/
def whereArr : List QueryWhere → Option (List String)
  | [] => some []
  | qw :: rest =>
    match whereItem qw with
    | none => none
    | some str =>
      match whereArr rest with
      | none => none
      | some arr => some (str :: arr)

def makeWhereStr (q : QueryBuilder) : Option String :=
  match whereArr q.QueryWheres with
  | none => none
  | some arr => some (if arr.length > 0 then " WHERE " ++ Join arr " AND " else "")

def makeOrderStr (unicodeToUpper : Char → Char) (q : QueryBuilder) : String :=
  let orderArr := q.QueryOrders.map
    (fun qo => "`" ++ qo.By ++ "` " ++ ToUpper unicodeToUpper qo.Direction)
  if orderArr.length > 0 then " ORDER BY " ++ Join orderArr "," else ""

def makeLimitStr (q : QueryBuilder) : String :=
  if q.QueryLimit.Count > 0 then
    " LIMIT " ++ Itoa q.QueryLimit.Offset ++ ", " ++ Itoa q.QueryLimit.Count
  else ""

def makeGroupStr (q : QueryBuilder) : String :=
  if q.QueryGroup ≠ "" then " GROUP BY `" ++ Replace q.QueryGroup ',' "`,`" ++ "`" else ""

def makeFieldStr (q : QueryBuilder) : String :=
  if q.QueryFields ≠ "" ∧ q.QueryFields ≠ "*" then
    Join ((Split q.QueryFields ',').map
      (fun item => if Index item '(' > 0 then item else "`" ++ item ++ "`")) ","
  else "*"

def ToUpdateStr (q : QueryBuilder) : Option String :=
  let setArr := q.QuerySets.map (fun qs =>
    match qs.Param with
    | .string s => "`" ++ qs.Col ++ "`='" ++ Replace s quote "\\'" ++ "'"
    | p => "`" ++ qs.Col ++ "`=" ++ sprintV p)
  let setStr := if setArr.length > 0 then "SET " ++ Join setArr "," else ""
  match makeWhereStr q with
  | none => none
  | some whereStr => some ("UPDATE `" ++ q.Table ++ "` " ++ setStr ++ " " ++ whereStr)

def ToDeleteStr (q : QueryBuilder) : Option String :=
  match makeWhereStr q with
  | none => none
  | some whereStr => some ("DELETE FROM `" ++ q.Table ++ "` " ++ whereStr)

def ToQueryStr (unicodeToUpper : Char → Char) (q : QueryBuilder) : Option String :=
  match makeWhereStr q with
  | none => none
  | some whereStr =>
    some (Trim ("SELECT " ++ makeFieldStr q ++ " FROM `" ++ q.Table ++ "` " ++ whereStr ++ " "
      ++ makeGroupStr q ++ " " ++ makeOrderStr unicodeToUpper q ++ " " ++ makeLimitStr q) " ")

/-! ## Vocabulary of the specification -/

/-- The value is an integer or a string. -/
def intOrString : GoValue → Bool
  | .int _ => true
  | .int64 _ => true
  | .string _ => true
  | _ => false

/-- The SQL literal the specification gives an integer or string value: the
decimal digits, or the text in single quotes with every quote and backslash
prefixed by a backslash. -/
def sqlLiteral : GoValue → String
  | .int n => Itoa n
  | .int64 n => Itoa n
  | .string s => "'" ++ ReplaceAllString s ++ "'"
  | _ => ""

/-- One predicate as the specification writes it: the quoted column, the
operator and the literal, separated by single spaces. -/
def predicateText (p : QueryWhere) : String :=
  "`" ++ p.Col ++ "` " ++ p.Op ++ " " ++ sqlLiteral p.Param

/-- The builder after one `Where` call per predicate of the list, in order. -/
def whereAll (q : QueryBuilder) (ps : List QueryWhere) : QueryBuilder :=
  ps.foldl (fun b p => Where b p.Col p.Op p.Param) q

/-- The value is an integer, or a string with neither a quote nor a backslash. -/
def plainValue : GoValue → Bool
  | .int _ => true
  | .int64 _ => true
  | .string s => decide (quote ∉ s.data ∧ backslash ∉ s.data)
  | _ => false

/-- The literal of a plain value: the decimal digits, or the text in single quotes. -/
def plainLiteral : GoValue → String
  | .int n => Itoa n
  | .int64 n => Itoa n
  | .string s => "'" ++ s ++ "'"
  | _ => ""

/-- The builder after one `Add` call per addition of the list, in order. -/
def addAll (q : QueryBuilder) (adds : List QueryAdd) : QueryBuilder :=
  adds.foldl (fun b a => Add b a.Col a.Param) q

/-- The escaping the specification describes: every quote and every backslash
of the text is prefixed by one backslash. -/
def prefixBackslash (l : List Char) : List Char :=
  (l.map (fun c => if c = quote ∨ c = backslash then [backslash, c] else [c])).flatten

/-- Reading a string literal from just after its opening quote: a backslash
takes the next rune literally, the first quote that is not escaped ends the
literal.  The result is the text read and the input left after the closing
quote; `none` when the input ends before the literal does. -/
def readLiteral : List Char → Option (List Char × List Char)
  | [] => none
  | c :: rest =>
    if c = quote then some ([], rest)
    else if c = backslash then
      match rest with
      | [] => none
      | d :: rest' =>
        match readLiteral rest' with
        | none => none
        | some r => some (d :: r.1, r.2)
    else
      match readLiteral rest with
      | none => none
      | some r => some (c :: r.1, r.2)

/-- The string literal of the specification for the text `s`. -/
def quotedLiteral (s : String) : String := "'" ++ String.mk (prefixBackslash s.data) ++ "'"

/-- The float64 value `1.5`, by its three renderings. -/
def onePointFive : Float64 := { fmtF := "1.500000", fmtE := "1.5E+00", fmtV := "1.5" }

/-- A parenthesised, comma-joined list of element texts. -/
def listText (rs : List String) : String := "(" ++ Join rs "," ++ ")"

/-- The four clause-setting calls of the fluent interface. -/
inductive Mutation where
  | where_ (col op : String) (param : GoValue)
  | group (cols : String)
  | order (by_ direction : String)
  | limit (offset count : Int)
deriving DecidableEq

/-- The builder after one call. -/
def Mutation.run (q : QueryBuilder) : Mutation → QueryBuilder
  | .where_ col op param => Where q col op param
  | .group cols => Group q cols
  | .order by_ direction => Order q by_ direction
  | .limit offset count => Limit q offset count

/-- The string is not empty and its last rune is not a space. -/
def EndsNonSpace (s : String) : Prop := ∃ a c, s.data = a ++ [c] ∧ c ≠ ' '

/-- The string is not empty and its first rune is not a space. -/
def StartsNonSpace (s : String) : Prop := ∃ c r, s.data = c :: r ∧ c ≠ ' '

/-- The value is an integer, or a string without a quote. -/
def quoteFree : GoValue → Bool
  | .int _ => true
  | .int64 _ => true
  | .string s => decide (quote ∉ s.data)
  | _ => false

/-- The builder after one `Set` call per assignment of the list, in order. -/
def setAll (q : QueryBuilder) (sets : List QuerySet) : QueryBuilder :=
  sets.foldl (fun b s => Set b s.Col s.Param) q

/-- One assignment as the specification writes it: the quoted column, `=` and the literal. -/
def assignmentText (s : QuerySet) : String := "`" ++ s.Col ++ "`=" ++ plainLiteral s.Param

/-- The text of one assignment in the loop of `ToUpdateStr`. -/
def setItem (qs : QuerySet) : String :=
  match qs.Param with
  | .string s => "`" ++ qs.Col ++ "`='" ++ Replace s quote "\\'" ++ "'"
  | p => "`" ++ qs.Col ++ "`=" ++ sprintV p

/-- The rune of a backtick (U+0060). -/
def backtick : Char := Char.ofNat 96

/-- An identifier between backticks. -/
def quoteIdent (s : String) : String := "`" ++ s ++ "`"

/-- The builder after one `Order` call per ordering of the list, in order. -/
def orderAll (q : QueryBuilder) (os : List QueryOrder) : QueryBuilder :=
  os.foldl (fun b o => Order b o.By o.Direction) q

/-- The rule of the specification for one item of the field list: an item that
contains an opening parenthesis is kept as it is, any other item is quoted. -/
def fieldItemSpec (item : String) : String :=
  if '(' ∈ item.data then item else quoteIdent item

/-- The item begins with an opening parenthesis. -/
def startsWithParen (item : String) : Bool :=
  match item.data with
  | [] => false
  | c :: _ => decide (c = '(')

/-! ## The connection registry -/

/-- The opened handle (`*gorp.DbMap` over `*sql.DB`), by the connection source
and the pool bounds it was configured with; the lifetime is a `time.Duration`
in nanoseconds. -/
structure DbMap where
  Source : String
  MaxOpenConns : Int
  MaxIdleConns : Int
  ConnMaxLifetime : Int
deriving DecidableEq

structure DbConnection where
  Name : String
  DbMap : DbMap
deriving DecidableEq

/-- The package variable `dbConnMap`, a `map[string]*DbConnection`: the
connection bound to each name, `none` for a name that is not a key. -/
def Registry : Type := String → Option DbConnection

/-- The registry after `init()`: the empty map. -/
def emptyRegistry : Registry := fun _ => none

def GetDb (dbConnMap : Registry) (name : String) : Option DbConnection := dbConnMap name

def GetDefDb (dbConnMap : Registry) : Option DbConnection := GetDb dbConnMap "default"

/-- The function `InitDbConnection` on the registry: the registry afterwards and
the returned error (`none` is `nil`).  `openErr` and `pingErr` are the answers
of the collaborator, `sql.Open` and `db.Ping`, should they be called. -/
def InitDbConnection (dbConnMap : Registry) (name dbSource : String)
    (maxConn maxIdle lifeTime : Int) (openErr pingErr : Option String) :
    Registry × Option String :=
  match dbConnMap name with
  | some _ => (dbConnMap, none)
  | none =>
    match openErr with
    | some err => (dbConnMap, some err)
    | none =>
      match pingErr with
      | some err => (dbConnMap, some err)
      | none =>
        (fun n => if n = name then
            some { Name := name,
                   DbMap := { Source := dbSource, MaxOpenConns := maxConn, MaxIdleConns := maxIdle,
                              ConnMaxLifetime := wrapInt (lifeTime * 1000000000) } }
          else dbConnMap n, none)

def InitDb (dbConnMap : Registry) (dbSource : String) (maxConn maxIdle lifeTime : Int)
    (openErr pingErr : Option String) : Registry × Option String :=
  InitDbConnection dbConnMap "default" dbSource maxConn maxIdle lifeTime openErr pingErr

/-! ## The transport token

`Serialize` is `json.Marshal` followed by base64, `UnserializeQueryBuilder` is
base64 decoding followed by `json.Unmarshal`.  The token is modelled as the
JSON document itself: the JSON text syntax and the base64 envelope, which are
exact inverses of each other on the tokens `Serialize` produces, are left out,
and a malformed token is outside the type.  Two things the document does not
carry.  The first is the Go type of a `Param`: `json.Unmarshal` stores a
`float64` for every JSON number, a `string` for a JSON string and a
`[]interface{}` for a JSON array.  The second is a byte of a string that does
not begin a valid UTF-8 sequence: `json.Marshal` writes U+FFFD for it.  The
strings of the embedding are sequences of runes, so the second is modelled on
their UTF-8 bytes (`utf8Coerce`), where it can be computed for any bytes. -/

/-- The UTF-8 bytes of a rune. -/
def encodeRune (c : Char) : List Nat :=
  if c.toNat < 128 then [c.toNat]
  else if c.toNat < 2048 then [192 + c.toNat / 64, 128 + c.toNat % 64]
  else if c.toNat < 65536 then
    [224 + c.toNat / 4096, 128 + c.toNat / 64 % 64, 128 + c.toNat % 64]
  else [240 + c.toNat / 262144, 128 + c.toNat / 4096 % 64, 128 + c.toNat / 64 % 64,
        128 + c.toNat % 64]

/-- The UTF-8 bytes of a sequence of runes: the bytes of the Go string. -/
def encodeRunes : List Char → List Nat
  | [] => []
  | c :: cs => encodeRune c ++ encodeRunes cs

/-- Go function `utf8.DecodeRune` on the bytes at hand: the rune and the bytes
after it, or `none` where Go answers `(RuneError, 1)`, the first byte not
beginning a valid sequence. -/
def decodeRune : List Nat → Option (Nat × List Nat)
  | [] => none
  | b0 :: rest =>
    if b0 < 128 then some (b0, rest)
    else if b0 < 194 then none
    else if b0 < 224 then
      match rest with
      | b1 :: r =>
        if 128 ≤ b1 ∧ b1 ≤ 191 then some ((b0 - 192) * 64 + (b1 - 128), r) else none
      | _ => none
    else if b0 < 240 then
      match rest with
      | b1 :: b2 :: r =>
        if (if b0 = 224 then 160 else 128) ≤ b1 ∧ b1 ≤ (if b0 = 237 then 159 else 191)
            ∧ 128 ≤ b2 ∧ b2 ≤ 191 then
          some ((b0 - 224) * 4096 + (b1 - 128) * 64 + (b2 - 128), r)
        else none
      | _ => none
    else if b0 < 245 then
      match rest with
      | b1 :: b2 :: b3 :: r =>
        if (if b0 = 240 then 144 else 128) ≤ b1 ∧ b1 ≤ (if b0 = 244 then 143 else 191)
            ∧ 128 ≤ b2 ∧ b2 ≤ 191 ∧ 128 ≤ b3 ∧ b3 ≤ 191 then
          some ((b0 - 240) * 262144 + (b1 - 128) * 4096 + (b2 - 128) * 64 + (b3 - 128), r)
        else none
      | _ => none
    else none

/-- The runes of the bytes, one step per rune: a byte that does not begin a
valid sequence gives U+FFFD and the reading goes on after that byte. -/
def decodeBytes : Nat → List Nat → List Char
  | 0, _ => []
  | _ + 1, [] => []
  | fuel + 1, b :: rest =>
    match decodeRune (b :: rest) with
    | some (v, r) => Char.ofNat v :: decodeBytes fuel r
    | none => Char.ofNat 65533 :: decodeBytes fuel rest

/-- The string that comes back from the JSON string written for the Go string
with these bytes: `json.Marshal` writes each valid sequence as it is and
U+FFFD for every other byte. -/
def utf8Coerce (bytes : List Nat) : String := String.mk (decodeBytes bytes.length bytes)

/-- The string that comes back from the JSON string written for `s`. -/
def jsonStringTrip (s : String) : String := utf8Coerce (encodeRunes s.data)

/-- The float is neither NaN nor an infinity, which `%f` prints as `NaN`,
`+Inf` and `-Inf`; `json.Marshal` rejects these three. -/
def Float64.finite (x : Float64) : Bool :=
  decide (x.fmtF ≠ "NaN" ∧ x.fmtF ≠ "+Inf" ∧ x.fmtF ≠ "-Inf")

/-- What the round trip takes from Go's libraries and the embedding does not
compute: the texts of `float64(n)` for an integer `n` beyond 2^53, where the
conversion rounds (`intFmtF` is `%f`, `intFmtV` is `%v`), its text
`strconv.FormatFloat(_, 'E', -1, 64)` (`intFmtE`, which no rendering of a
decoded builder uses), and `otherTrip`, the value that comes back for a value
of another kind named by its `%v` text, `none` when `json.Marshal` rejects the
value (a channel, a function). -/
structure JsonLib where
  intFmtF : Int → String
  intFmtE : Int → String
  intFmtV : Int → String
  otherTrip : String → Option GoValue

/-- A JSON number as `json.Marshal` writes it: the decimal digits of an
integer, or the shortest text that reads back as the given finite float. -/
inductive JsonNumber where
  | ofInt (n : Int)
  | ofFloat (x : Float64)

/-- The JSON written for a `Param`. -/
inductive JsonValue where
  | string (s : String)
  | number (n : JsonNumber)
  | strings (l : List String)
  | numbers (l : List JsonNumber)
  | other (back : GoValue)

/-- The JSON object of a `QueryAdd` or of a `QuerySet`. -/
structure JsonAdd where
  Col : String
  Param : JsonValue

/-- The JSON object of a `QueryWhere`. -/
structure JsonWhere where
  Col : String
  Op : String
  Param : JsonValue

/-- The JSON document of a `QueryBuilder`, which stands for the token. -/
structure Token where
  Table : String
  QueryFields : String
  QueryAdds : List JsonAdd
  QuerySets : List JsonAdd
  QueryOrders : List QueryOrder
  QueryLimit : QueryLimit
  QueryWheres : List JsonWhere
  QueryGroup : String

/-- The text `%v` prints for a float that is an integer of seven digits or more
and at most 2^53: the first digit, after a point the further digits up to the
last one that is not zero, `e+` and the exponent in two digits. -/
def expText (a : Nat) : String :=
  match dropTrailing (fun c => c == '0') (Nat.toDigits 10 a) with
  | [] => "0"
  | d :: more =>
    String.mk (d :: (if more = [] then [] else '.' :: more)) ++ "e+"
      ++ (if (Nat.toDigits 10 a).length - 1 < 10 then "0" else "")
      ++ Nat.repr ((Nat.toDigits 10 a).length - 1)

/-- The `float64` that `json.Unmarshal` stores for a JSON number.  An integer of
at most 2^53 in magnitude is a float exactly: `%f` prints its digits and six
zeros, `%v` prints its digits below 10^6 and the exponent form from there on. -/
def float64OfNumber (lib : JsonLib) : JsonNumber → Float64
  | .ofInt n =>
    { fmtF := if n.natAbs ≤ 9007199254740992 then Itoa n ++ ".000000" else lib.intFmtF n,
      fmtE := lib.intFmtE n,
      fmtV :=
        if n.natAbs < 1000000 then Itoa n
        else if n.natAbs ≤ 9007199254740992 then
          (if n < 0 then "-" else "") ++ expText n.natAbs
        else lib.intFmtV n }
  | .ofFloat x => x

/-- The JSON `json.Marshal` writes for a `Param`; `none` when it returns an error. -/
def marshalParam (lib : JsonLib) : GoValue → Option JsonValue
  | .string s => some (.string (jsonStringTrip s))
  | .int n => some (.number (.ofInt n))
  | .int64 n => some (.number (.ofInt n))
  | .float64 x => if x.finite then some (.number (.ofFloat x)) else none
  | .strings l => some (.strings (l.map jsonStringTrip))
  | .ints l => some (.numbers (l.map JsonNumber.ofInt))
  | .int64s l => some (.numbers (l.map JsonNumber.ofInt))
  | .float64s l =>
    if l.all Float64.finite then some (.numbers (l.map JsonNumber.ofFloat)) else none
  | .other v =>
    match lib.otherTrip v with
    | none => none
    | some back => some (.other back)

/-- The value `json.Unmarshal` stores in a `Param interface{}`: a `string`, a
`float64`, or a `[]interface{}`, which is a value of another kind given by its
`%v` text (a list stands for a slice that is not nil; a nil slice is written
`null` and comes back as `nil`). -/
def unmarshalParam (lib : JsonLib) : JsonValue → GoValue
  | .string s => .string s
  | .number n => .float64 (float64OfNumber lib n)
  | .strings l => .other ("[" ++ Join l " " ++ "]")
  | .numbers l => .other ("[" ++ Join (l.map (fun n => (float64OfNumber lib n).fmtV)) " " ++ "]")
  | .other back => back

/-- All the results, or `none` when one of them is an error. -/
def allSome {α : Type} : List (Option α) → Option (List α)
  | [] => some []
  | none :: _ => none
  | some a :: rest =>
    match allSome rest with
    | none => none
    | some r => some (a :: r)

/-- The method `Serialize`: the token, or `none` when `json.Marshal` returns an
error.  Every string goes through the coercion of `json.Marshal`. -/
def Serialize (lib : JsonLib) (q : QueryBuilder) : Option Token :=
  match allSome (q.QueryAdds.map
          (fun a => (marshalParam lib a.Param).map (JsonAdd.mk (jsonStringTrip a.Col)))),
        allSome (q.QuerySets.map
          (fun a => (marshalParam lib a.Param).map (JsonAdd.mk (jsonStringTrip a.Col)))),
        allSome (q.QueryWheres.map
          (fun w => (marshalParam lib w.Param).map
            (JsonWhere.mk (jsonStringTrip w.Col) (jsonStringTrip w.Op)))) with
  | some adds, some sets, some wheres =>
    some { Table := jsonStringTrip q.Table, QueryFields := jsonStringTrip q.QueryFields,
           QueryAdds := adds, QuerySets := sets,
           QueryOrders := q.QueryOrders.map
             (fun o => { By := jsonStringTrip o.By, Direction := jsonStringTrip o.Direction }),
           QueryLimit := q.QueryLimit, QueryWheres := wheres,
           QueryGroup := jsonStringTrip q.QueryGroup }
  | _, _, _ => none

/-- The function `UnserializeQueryBuilder` on a token that is a JSON document of a builder. -/
def UnserializeQueryBuilder (lib : JsonLib) (str : Token) : Option QueryBuilder :=
  some { Table := str.Table, QueryFields := str.QueryFields,
         QueryAdds := str.QueryAdds.map (fun a => { Col := a.Col, Param := unmarshalParam lib a.Param }),
         QuerySets := str.QuerySets.map (fun a => { Col := a.Col, Param := unmarshalParam lib a.Param }),
         QueryOrders := str.QueryOrders, QueryLimit := str.QueryLimit,
         QueryWheres := str.QueryWheres.map
           (fun w => { Col := w.Col, Op := w.Op, Param := unmarshalParam lib w.Param }),
         QueryGroup := str.QueryGroup }

/-- The builder that comes back from its own token. -/
def roundTrip (lib : JsonLib) (q : QueryBuilder) : Option QueryBuilder :=
  match Serialize lib q with
  | none => none
  | some str => UnserializeQueryBuilder lib str

/-- The value that comes back for a value `json.Marshal` accepts. -/
def tripValue (lib : JsonLib) (v : GoValue) : GoValue :=
  unmarshalParam lib ((marshalParam lib v).getD (.string ""))

/-- The builder with every value replaced by the one that comes back. -/
def tripBuilder (lib : JsonLib) (q : QueryBuilder) : QueryBuilder :=
  { q with
    QueryAdds := q.QueryAdds.map (fun a => { Col := a.Col, Param := tripValue lib a.Param }),
    QuerySets := q.QuerySets.map (fun a => { Col := a.Col, Param := tripValue lib a.Param }),
    QueryWheres := q.QueryWheres.map
      (fun w => { Col := w.Col, Op := w.Op, Param := tripValue lib w.Param }) }

/-- The text of a value in an INSERT or UPDATE statement. -/
def valueText (v : GoValue) : String := addVal { Col := "", Param := v }

/-- The integer is below 10^6 in magnitude. -/
def smallInt (n : Int) : Bool := decide (n.natAbs < 1000000)

/-- A predicate value whose rendering survives the token: a string, a finite
float, or a value of another kind that comes back as a value of another kind. -/
def whereTrips (lib : JsonLib) : GoValue → Bool
  | .string _ => true
  | .float64 x => x.finite
  | .other v =>
    match lib.otherTrip v with
    | some (.other _) => true
    | _ => false
  | _ => false

/-- An addition or assignment value whose rendering survives the token: a
string, a finite float, an integer below 10^6 in magnitude, a list with at
least one element of such values, or a value of another kind that comes back
as a value printed the same. -/
def setTrips (lib : JsonLib) : GoValue → Bool
  | .string _ => true
  | .float64 x => x.finite
  | .int n => smallInt n
  | .int64 n => smallInt n
  | .strings l => !l.isEmpty
  | .ints l => !l.isEmpty && l.all smallInt
  | .int64s l => !l.isEmpty && l.all smallInt
  | .float64s l => !l.isEmpty && l.all Float64.finite
  | .other v =>
    match lib.otherTrip v with
    | some back => decide (valueText back = v)
    | none => false

/-- The float64 NaN, by its three renderings. -/
def notANumber : Float64 := { fmtF := "NaN", fmtE := "NaN", fmtV := "NaN" }

/-- The float64 value `5`, by its three renderings. -/
def floatFive : Float64 := { fmtF := "5.000000", fmtE := "5E+00", fmtV := "5" }

/-- The answers of Go's libraries on the values of another kind used in the
examples: the `int32` value `5`, printed `5`, comes back as the float `5`, and
a boolean, printed `true` or `false`, comes back as itself. -/
def exampleLib : JsonLib :=
  { intFmtF := fun _ => "", intFmtE := fun _ => "", intFmtV := fun _ => "",
    otherTrip := fun v =>
      if v = "5" then some (.float64 floatFive)
      else if v = "true" ∨ v = "false" then some (.other v)
      else none }

/-! ## Lemmas on the library functions -/

theorem data_append (a b : String) : (a ++ b).data = a.data ++ b.data := rfl

theorem mk_data (s : String) : String.mk s.data = s := rfl

theorem dropTrailing_append_space (p : Char → Bool) (l : List Char) (c : Char) (h : p c = true) :
    dropTrailing p (l ++ [c]) = dropTrailing p l := by
  simp [dropTrailing, List.dropWhile_cons, h]

theorem dropTrailing_ends (p : Char → Bool) (l : List Char) (c : Char) (h : p c = false) :
    dropTrailing p (l ++ [c]) = l ++ [c] := by
  simp [dropTrailing, List.dropWhile_cons, h]

theorem dropTrailing_append (p : Char → Bool) (a b : List Char) (c : Char) (h : p c = false) :
    dropTrailing p (a ++ [c] ++ b) = a ++ [c] ++ dropTrailing p b := by
  induction b using List.reverseRecOn with
  | nil => simp [dropTrailing, List.dropWhile_cons, h]
  | append_singleton b x ih =>
    by_cases hx : p x = true
    · rw [← List.append_assoc, dropTrailing_append_space p _ x hx, ih,
        dropTrailing_append_space p _ x hx]
    · have hx' : p x = false := by simpa using hx
      rw [dropTrailing_ends p b x hx', ← List.append_assoc, dropTrailing_ends p _ x hx']

theorem endsNonSpace_append (a b : String) (h : EndsNonSpace b) : EndsNonSpace (a ++ b) := by
  obtain ⟨l, c, hl, hc⟩ := h
  exact ⟨a.data ++ l, c, by simp [data_append, hl], hc⟩

theorem notCut_of_ne {c : Char} (h : c ≠ ' ') :
    (fun c => decide (c ∈ (" " : String).data)) c = false := by
  simpa using h

theorem TrimRight_append_space (a : String) : TrimRight (a ++ " ") " " = TrimRight a " " := by
  simp only [TrimRight, data_append]
  congr 1
  exact dropTrailing_append_space _ a.data ' ' (by simp)

theorem TrimRight_empty : TrimRight "" " " = "" := by decide

theorem TrimRight_append (a b : String) (h : EndsNonSpace a) :
    TrimRight (a ++ b) " " = a ++ TrimRight b " " := by
  obtain ⟨l, c, hl, hc⟩ := h
  apply String.ext
  simp only [TrimRight, data_append, hl]
  exact dropTrailing_append _ l b.data c (notCut_of_ne hc)

theorem TrimRight_of_ends (a : String) (h : EndsNonSpace a) : TrimRight a " " = a := by
  have := TrimRight_append a "" h
  simpa [TrimRight_empty] using this

theorem TrimLeft_of_head (s : String) (c : Char) (r : List Char) (h : s.data = c :: r)
    (hc : c ≠ ' ') : TrimLeft s " " = s := by
  apply String.ext
  simp only [TrimLeft, h]
  rw [List.dropWhile_cons_of_neg]
  simpa using hc

theorem digitChar_ne_space (d : Nat) (h : d < 10) : Nat.digitChar d ≠ ' ' := by
  interval_cases d <;> decide

theorem toDigitsCore_suffix (b : Nat) : ∀ (fuel n : Nat) (ds : List Char),
    ∃ pre, Nat.toDigitsCore b fuel n ds = pre ++ ds := by
  intro fuel
  induction fuel with
  | zero => intro n ds; exact ⟨[], rfl⟩
  | succ fuel ih =>
    intro n ds
    simp only [Nat.toDigitsCore]
    split
    · exact ⟨[Nat.digitChar (n % b)], rfl⟩
    · obtain ⟨pre, hpre⟩ := ih (n / b) (Nat.digitChar (n % b) :: ds)
      exact ⟨pre ++ [Nat.digitChar (n % b)], by simp [hpre]⟩

theorem endsNonSpace_repr (n : Nat) : EndsNonSpace (Nat.repr n) := by
  have h : ∃ pre, Nat.toDigitsCore 10 (n + 1) n [] = pre ++ [Nat.digitChar (n % 10)] := by
    simp only [Nat.toDigitsCore]
    split
    · exact ⟨[], rfl⟩
    · exact toDigitsCore_suffix 10 n (n / 10) [Nat.digitChar (n % 10)]
  obtain ⟨pre, hpre⟩ := h
  exact ⟨pre, Nat.digitChar (n % 10), by simp [Nat.repr, Nat.toDigits, List.asString, hpre],
    digitChar_ne_space _ (Nat.mod_lt _ (by decide))⟩

theorem endsNonSpace_Itoa (i : Int) : EndsNonSpace (Itoa i) := by
  unfold Itoa
  split
  · exact endsNonSpace_append _ _ (endsNonSpace_repr _)
  · exact endsNonSpace_repr _

theorem startsNonSpace_append (a b : String) (h : StartsNonSpace a) : StartsNonSpace (a ++ b) := by
  obtain ⟨c, r, hr, hc⟩ := h
  exact ⟨c, r ++ b.data, by simp [data_append, hr], hc⟩

theorem TrimLeft_of_starts (s : String) (h : StartsNonSpace s) : TrimLeft s " " = s := by
  obtain ⟨c, r, hr, hc⟩ := h
  exact TrimLeft_of_head s c r hr hc

theorem startsNonSpace_select : StartsNonSpace "SELECT " := ⟨'S', "ELECT ".data, rfl, by decide⟩

theorem endsNonSpace_backtick (a : String) : EndsNonSpace (a ++ "`") :=
  endsNonSpace_append a "`" ⟨[], Char.ofNat 96, rfl, by decide⟩

/-- The shape of a SELECT statement: the fixed head up to the quoted table name,
then the clauses without their trailing spaces. -/
theorem ToQueryStr_eq (up : Char → Char) (q : QueryBuilder) :
    ToQueryStr up q = (makeWhereStr q).map (fun w =>
      "SELECT " ++ makeFieldStr q ++ " FROM `" ++ q.Table ++ "`"
        ++ TrimRight (" " ++ w ++ " " ++ makeGroupStr q ++ " " ++ makeOrderStr up q ++ " "
          ++ makeLimitStr q) " ") := by
  unfold ToQueryStr
  cases makeWhereStr q with
  | none => rfl
  | some w =>
    refine congrArg some ?_
    have hX : "SELECT " ++ makeFieldStr q ++ " FROM `" ++ q.Table ++ "` " ++ w ++ " "
        ++ makeGroupStr q ++ " " ++ makeOrderStr up q ++ " " ++ makeLimitStr q
        = ("SELECT " ++ makeFieldStr q ++ " FROM `" ++ q.Table ++ "`")
          ++ (" " ++ w ++ " " ++ makeGroupStr q ++ " " ++ makeOrderStr up q ++ " "
            ++ makeLimitStr q) := by
      apply String.ext
      simp only [data_append, List.append_assoc]
      rfl
    have hS : StartsNonSpace (("SELECT " ++ makeFieldStr q ++ " FROM `" ++ q.Table ++ "`")
          ++ (" " ++ w ++ " " ++ makeGroupStr q ++ " " ++ makeOrderStr up q ++ " "
            ++ makeLimitStr q)) := by
      repeat apply startsNonSpace_append
      exact startsNonSpace_select
    rw [hX, Trim, TrimLeft_of_starts _ hS, TrimRight_append _ _ (endsNonSpace_backtick _)]

/-! ## Lemmas on the WHERE clause -/

theorem whereAll_eq (q : QueryBuilder) (ps : List QueryWhere) :
    whereAll q ps = { q with QueryWheres := q.QueryWheres ++ ps } := by
  induction ps generalizing q with
  | nil => simp [whereAll]
  | cons p ps ih =>
    have h := ih (Where q p.Col p.Op p.Param)
    simp only [whereAll, List.foldl_cons] at h ⊢
    rw [h]
    simp [Where]

theorem whereItem_intOrString (p : QueryWhere) (h : intOrString p.Param = true) :
    whereItem p = some (predicateText p) := by
  obtain ⟨c, op, v⟩ := p
  cases v <;> first | rfl | simp [intOrString] at h

theorem whereArr_intOrString (ps : List QueryWhere)
    (h : ∀ p ∈ ps, intOrString p.Param = true) :
    whereArr ps = some (ps.map predicateText) := by
  induction ps with
  | nil => rfl
  | cons p ps ih =>
    have h1 := whereItem_intOrString p (h p (List.mem_cons_self _ _))
    have h2 := ih (fun x hx => h x (List.mem_cons_of_mem _ hx))
    simp only [whereArr, h1, h2, List.map_cons]

theorem endsNonSpace_quote (a : String) : EndsNonSpace (a ++ "'") :=
  endsNonSpace_append a "'" ⟨[], quote, rfl, by decide⟩

theorem endsNonSpace_predicateText (p : QueryWhere) (h : intOrString p.Param = true) :
    EndsNonSpace (predicateText p) := by
  obtain ⟨c, op, v⟩ := p
  cases v with
  | int n => exact endsNonSpace_append _ _ (endsNonSpace_Itoa n)
  | int64 n => exact endsNonSpace_append _ _ (endsNonSpace_Itoa n)
  | string s => exact endsNonSpace_append _ _ (endsNonSpace_quote _)
  | _ => simp [intOrString] at h

theorem endsNonSpace_Join (l : List String) (sep : String) (hne : l ≠ [])
    (h : ∀ s ∈ l, EndsNonSpace s) : EndsNonSpace (Join l sep) := by
  induction l with
  | nil => exact absurd rfl hne
  | cons a l ih =>
    cases l with
    | nil => exact h a (List.mem_cons_self _ _)
    | cons b r =>
      exact endsNonSpace_append _ _
        (ih (List.cons_ne_nil _ _) (fun x hx => h x (List.mem_cons_of_mem _ hx)))

theorem TrimRight_clauses_where_only (w : String) (h : EndsNonSpace w) :
    TrimRight (" " ++ w ++ " " ++ "" ++ " " ++ "" ++ " " ++ "") " " = " " ++ w := by
  simp only [String.append_empty, TrimRight_append_space]
  exact TrimRight_of_ends _ (endsNonSpace_append _ _ h)

theorem makeWhereStr_intOrString (q : QueryBuilder) (hne : q.QueryWheres ≠ [])
    (hv : ∀ p ∈ q.QueryWheres, intOrString p.Param = true) :
    makeWhereStr q = some (" WHERE " ++ Join (q.QueryWheres.map predicateText) " AND ") := by
  unfold makeWhereStr
  rw [whereArr_intOrString _ hv]
  have hlen : (q.QueryWheres.map predicateText).length > 0 := by
    rw [List.length_map]
    exact List.length_pos.mpr hne
  exact congrArg some (if_pos hlen)

theorem makeFieldStr_unset (q : QueryBuilder) (h : q.QueryFields = "") : makeFieldStr q = "*" := by
  unfold makeFieldStr
  rw [h]
  rfl

theorem makeGroupStr_unset (q : QueryBuilder) (h : q.QueryGroup = "") : makeGroupStr q = "" := by
  unfold makeGroupStr
  rw [h]
  rfl

theorem makeOrderStr_unset (up : Char → Char) (q : QueryBuilder) (h : q.QueryOrders = []) :
    makeOrderStr up q = "" := by
  unfold makeOrderStr
  rw [h]
  rfl

theorem makeLimitStr_unset (q : QueryBuilder) (h : q.QueryLimit.Count ≤ 0) :
    makeLimitStr q = "" := by
  unfold makeLimitStr
  exact if_neg (not_lt.mpr h)

theorem ToQueryStr_no_orders (up up' : Char → Char) (q : QueryBuilder) (h : q.QueryOrders = []) :
    ToQueryStr up q = ToQueryStr up' q := by
  unfold ToQueryStr
  rw [makeOrderStr_unset up q h, makeOrderStr_unset up' q h]

/-! ## Lemmas on INSERT -/

theorem replaceRunes_absent (old : Char) (new l : List Char) (h : old ∉ l) :
    replaceRunes old new l = l := by
  induction l with
  | nil => rfl
  | cons c cs ih =>
    have hc : c ≠ old := fun e => h (e ▸ List.mem_cons_self _ _)
    have hcs : old ∉ cs := fun e => h (List.mem_cons_of_mem _ e)
    simp only [replaceRunes, if_neg hc, ih hcs]

theorem Replace_absent (s : String) (old : Char) (new : String) (h : old ∉ s.data) :
    Replace s old new = s := by
  unfold Replace
  rw [replaceRunes_absent old new.data s.data h]

theorem addAll_eq (q : QueryBuilder) (adds : List QueryAdd) :
    addAll q adds = { q with QueryAdds := q.QueryAdds ++ adds } := by
  induction adds generalizing q with
  | nil => simp [addAll]
  | cons a adds ih =>
    have h := ih (Add q a.Col a.Param)
    simp only [addAll, List.foldl_cons] at h ⊢
    rw [h]
    simp [Add]

theorem addVal_plain (a : QueryAdd) (h : plainValue a.Param = true) :
    addVal a = plainLiteral a.Param := by
  obtain ⟨c, v⟩ := a
  cases v with
  | string s =>
    have hq : quote ∉ s.data := by
      have := of_decide_eq_true h
      exact this.1
    show "'" ++ Replace s quote "\\'" ++ "'" = "'" ++ s ++ "'"
    rw [Replace_absent s quote _ hq]
  | int n => rfl
  | int64 n => rfl
  | _ => simp [plainValue] at h

theorem ToInsertStr_plain (b : QueryBuilder) (h : ∀ a ∈ b.QueryAdds, plainValue a.Param = true) :
    ToInsertStr b = "INSERT INTO `" ++ b.Table ++ "` ("
      ++ Join (b.QueryAdds.map (fun a => "`" ++ a.Col ++ "`")) "," ++ ") VALUES("
      ++ Join (b.QueryAdds.map (fun a => plainLiteral a.Param)) "," ++ ")" := by
  unfold ToInsertStr
  have hm : b.QueryAdds.map addVal = b.QueryAdds.map (fun a => plainLiteral a.Param) :=
    List.map_congr_left (fun a ha => addVal_plain a (h a ha))
  rw [hm]

/-! ## Lemmas on escaping -/

theorem escapeRunes_eq (l : List Char) : escapeRunes l = prefixBackslash l := by
  induction l with
  | nil => rfl
  | cons c cs ih =>
    have ht : prefixBackslash (c :: cs)
        = (if c = quote ∨ c = backslash then [backslash, c] else [c]) ++ prefixBackslash cs := by
      simp [prefixBackslash]
    rw [ht, ← ih]
    by_cases h : c = quote ∨ c = backslash
    · have hm : reMatches c = true := by
        rcases h with h | h <;> simp [reMatches, h]
      simp [escapeRunes, hm, h]
    · have hm : reMatches c = false := by
        have h1 : c ≠ quote := fun e => h (Or.inl e)
        have h2 : c ≠ backslash := fun e => h (Or.inr e)
        simp [reMatches, h1, h2]
      simp [escapeRunes, hm, h]

theorem ReplaceAllString_eq (s : String) :
    "'" ++ ReplaceAllString s ++ "'" = quotedLiteral s := by
  unfold ReplaceAllString quotedLiteral
  rw [escapeRunes_eq]

theorem readLiteral_quote (rest : List Char) : readLiteral (quote :: rest) = some ([], rest) := by
  rw [readLiteral.eq_def]
  exact if_pos rfl

theorem readLiteral_backslash (d : Char) (rest : List Char) :
    readLiteral (backslash :: d :: rest)
      = match readLiteral rest with
        | none => none
        | some r => some (d :: r.1, r.2) := by
  rw [readLiteral.eq_def]
  show (if backslash = quote then _ else if backslash = backslash then _ else _) = _
  rw [if_neg (by decide), if_pos rfl]

theorem readLiteral_other (c : Char) (rest : List Char) (hq : c ≠ quote) (hb : c ≠ backslash) :
    readLiteral (c :: rest)
      = match readLiteral rest with
        | none => none
        | some r => some (c :: r.1, r.2) := by
  rw [readLiteral.eq_def]
  show (if c = quote then _ else if c = backslash then _ else _) = _
  rw [if_neg hq, if_neg hb]

theorem readLiteral_escapeRunes (l rest : List Char) :
    readLiteral (escapeRunes l ++ quote :: rest) = some (l, rest) := by
  induction l with
  | nil => exact readLiteral_quote rest
  | cons c cs ih =>
    by_cases hm : reMatches c = true
    · have he : escapeRunes (c :: cs) = backslash :: c :: escapeRunes cs := by
        simp [escapeRunes, hm]
      rw [he]
      show readLiteral (backslash :: c :: (escapeRunes cs ++ quote :: rest)) = _
      rw [readLiteral_backslash, ih]
    · have hm' : reMatches c = false := by simpa using hm
      have he : escapeRunes (c :: cs) = c :: escapeRunes cs := by
        simp [escapeRunes, hm']
      have hq : c ≠ quote := by
        intro e
        subst e
        exact hm (by decide)
      have hb : c ≠ backslash := by
        intro e
        subst e
        exact hm (by decide)
      rw [he]
      show readLiteral (c :: (escapeRunes cs ++ quote :: rest)) = _
      rw [readLiteral_other c _ hq hb, ih]

/-! ## Lemmas on appending one predicate -/

theorem Join_append_singleton (l : List String) (x sep : String) :
    ∃ pre, Join (l ++ [x]) sep = pre ++ x := by
  induction l with
  | nil => exact ⟨"", by simp [Join]⟩
  | cons a l ih =>
    obtain ⟨pre, hpre⟩ := ih
    cases l with
    | nil => exact ⟨a ++ sep, rfl⟩
    | cons b r =>
      refine ⟨a ++ sep ++ pre, ?_⟩
      show a ++ sep ++ Join (b :: r ++ [x]) sep = _
      rw [hpre, String.append_assoc (a ++ sep)]

theorem whereArr_append_singleton (ws : List QueryWhere) (w : QueryWhere) (arr : List String)
    (text : String) (h : whereArr ws = some arr) (hw : whereItem w = some text) :
    whereArr (ws ++ [w]) = some (arr ++ [text]) := by
  induction ws generalizing arr with
  | nil =>
    have : arr = [] := by
      have h2 : some ([] : List String) = some arr := h
      exact (Option.some.inj h2).symm
    subst this
    simp [whereArr, hw]
  | cons a ws ih =>
    cases ha : whereItem a with
    | none => simp [whereArr, ha] at h
    | some sa =>
      cases hr : whereArr ws with
      | none => simp [whereArr, ha, hr] at h
      | some r =>
        have harr : arr = sa :: r := by
          have h2 : whereArr (a :: ws) = some (sa :: r) := by simp only [whereArr, ha, hr]
          rw [h] at h2
          exact Option.some.inj h2
        subst harr
        simp [whereArr, ha, ih r hr]

theorem makeWhereStr_Where (q : QueryBuilder) (c op : String) (v : GoValue) (arr : List String)
    (text : String) (h : whereArr q.QueryWheres = some arr)
    (hw : whereItem ⟨c, op, v⟩ = some text) :
    makeWhereStr (Where q c op v) = some (" WHERE " ++ Join (arr ++ [text]) " AND ") := by
  unfold makeWhereStr
  show (match whereArr (q.QueryWheres ++ [⟨c, op, v⟩]) with
    | none => none
    | some arr => some (if arr.length > 0 then " WHERE " ++ Join arr " AND " else "")) = _
  rw [whereArr_append_singleton _ _ arr text h hw]
  exact congrArg some (if_pos (by simp))

/-- Appending a predicate whose text does not end in a space: the statement is
the head, the WHERE clause up to that text, and the later clauses without their
trailing spaces. -/
theorem ToQueryStr_Where (up : Char → Char) (q : QueryBuilder) (c op : String) (v : GoValue)
    (arr : List String) (text : String) (h : whereArr q.QueryWheres = some arr)
    (hw : whereItem ⟨c, op, v⟩ = some text) (he : EndsNonSpace text) :
    ∃ pre, ToQueryStr up (Where q c op v)
      = some (pre ++ text ++ TrimRight (" " ++ makeGroupStr q ++ " " ++ makeOrderStr up q
          ++ " " ++ makeLimitStr q) " ") := by
  obtain ⟨jp, hjp⟩ := Join_append_singleton arr text " AND "
  refine ⟨"SELECT " ++ makeFieldStr q ++ " FROM `" ++ q.Table ++ "`" ++ " " ++ " WHERE " ++ jp, ?_⟩
  rw [ToQueryStr_eq, makeWhereStr_Where q c op v arr text h hw, hjp]
  refine congrArg some ?_
  show "SELECT " ++ makeFieldStr q ++ " FROM `" ++ q.Table ++ "`"
      ++ TrimRight (" " ++ (" WHERE " ++ (jp ++ text)) ++ " " ++ makeGroupStr q ++ " "
        ++ makeOrderStr up q ++ " " ++ makeLimitStr q) " " = _
  have e1 : " " ++ (" WHERE " ++ (jp ++ text)) ++ " " ++ makeGroupStr q ++ " "
        ++ makeOrderStr up q ++ " " ++ makeLimitStr q
      = (" " ++ " WHERE " ++ jp ++ text)
        ++ (" " ++ makeGroupStr q ++ " " ++ makeOrderStr up q ++ " " ++ makeLimitStr q) := by
    simp only [String.append_assoc]
  rw [e1, TrimRight_append _ _ (endsNonSpace_append _ _ he)]
  simp only [String.append_assoc]

theorem endsNonSpace_paren (a : String) : EndsNonSpace (a ++ ")") :=
  endsNonSpace_append a ")" ⟨[], ')', rfl, by decide⟩

/-! ## Lemmas on LIMIT -/

theorem makeLimitStr_set (q : QueryBuilder) (h : 0 < q.QueryLimit.Count) :
    makeLimitStr q = " LIMIT " ++ Itoa q.QueryLimit.Offset ++ ", " ++ Itoa q.QueryLimit.Count := by
  unfold makeLimitStr
  exact if_pos h

theorem ToQueryStr_limit (up : Char → Char) (q : QueryBuilder) (h : 0 < q.QueryLimit.Count) :
    ToQueryStr up q = (makeWhereStr q).map (fun w =>
      "SELECT " ++ makeFieldStr q ++ " FROM `" ++ q.Table ++ "` " ++ w ++ " " ++ makeGroupStr q
        ++ " " ++ makeOrderStr up q ++ " "
        ++ (" LIMIT " ++ Itoa q.QueryLimit.Offset ++ ", " ++ Itoa q.QueryLimit.Count)) := by
  rw [ToQueryStr_eq, makeLimitStr_set q h]
  cases makeWhereStr q with
  | none => rfl
  | some w =>
    refine congrArg some ?_
    beta_reduce
    rw [TrimRight_of_ends _ (endsNonSpace_append _ _ (endsNonSpace_append _ _ (endsNonSpace_Itoa _)))]
    apply String.ext
    simp only [data_append, List.append_assoc]
    rfl

theorem ToQueryStr_no_limit (up : Char → Char) (q : QueryBuilder) (h : q.QueryLimit.Count ≤ 0) :
    ToQueryStr up q = (makeWhereStr q).map (fun w =>
      Trim ("SELECT " ++ makeFieldStr q ++ " FROM `" ++ q.Table ++ "` " ++ w ++ " "
        ++ makeGroupStr q ++ " " ++ makeOrderStr up q) " ") := by
  unfold ToQueryStr
  rw [makeLimitStr_unset q h]
  cases makeWhereStr q with
  | none => rfl
  | some w =>
    refine congrArg some ?_
    beta_reduce
    have hS : ∀ r : String, StartsNonSpace ("SELECT " ++ makeFieldStr q ++ " FROM `" ++ q.Table
        ++ "` " ++ w ++ " " ++ makeGroupStr q ++ " " ++ makeOrderStr up q ++ r) := by
      intro r
      repeat apply startsNonSpace_append
      exact startsNonSpace_select
    have h1 := hS " "
    have h2 := hS ""
    rw [String.append_empty] at h2 ⊢
    rw [Trim, Trim, TrimLeft_of_starts _ h1, TrimLeft_of_starts _ h2, TrimRight_append_space]

/-! ## Lemmas on paging and on the order of the calls -/

theorem wrapInt_of_fits (x : Int) (h1 : -2 ^ 63 ≤ x) (h2 : x < 2 ^ 63) : wrapInt x = x := by
  unfold wrapInt
  omega

theorem NextPage_pos (q : QueryBuilder) (h : 0 < q.QueryLimit.Count) :
    NextPage q = { q with QueryLimit :=
      { Offset := wrapInt (q.QueryLimit.Offset + q.QueryLimit.Count),
        Count := q.QueryLimit.Count } } := by
  unfold NextPage
  exact if_pos h

theorem NextPage_nonpos (q : QueryBuilder) (h : q.QueryLimit.Count ≤ 0) : NextPage q = q := by
  unfold NextPage
  exact if_neg (not_lt.mpr h)

theorem run_comm (c op : String) (v : GoValue) (g b d : String) (o n : Int) :
    ∀ x ∈ [Mutation.where_ c op v, Mutation.group g, Mutation.order b d, Mutation.limit o n],
    ∀ y ∈ [Mutation.where_ c op v, Mutation.group g, Mutation.order b d, Mutation.limit o n],
    ∀ z : QueryBuilder, Mutation.run (Mutation.run z x) y = Mutation.run (Mutation.run z y) x := by
  intro x hx y hy z
  simp only [List.mem_cons, List.mem_singleton, List.not_mem_nil, or_false] at hx hy
  rcases hx with rfl | rfl | rfl | rfl <;> rcases hy with rfl | rfl | rfl | rfl <;> rfl

theorem ToQueryStr_Limit (up : Char → Char) (q : QueryBuilder) (o n : Int) (h : 0 < n) :
    ToQueryStr up (Limit q o n) = (makeWhereStr q).map (fun w =>
      "SELECT " ++ makeFieldStr q ++ " FROM `" ++ q.Table ++ "` " ++ w ++ " " ++ makeGroupStr q
        ++ " " ++ makeOrderStr up q ++ " " ++ (" LIMIT " ++ Itoa o ++ ", " ++ Itoa n)) :=
  ToQueryStr_limit up (Limit q o n) h

theorem makeGroupStr_Group (q : QueryBuilder) (g : String) (h : g ≠ "") :
    makeGroupStr (Group q g) = " GROUP BY `" ++ Replace g ',' "`,`" ++ "`" := by
  unfold makeGroupStr
  exact if_pos h

theorem makeOrderStr_Order (up : Char → Char) (q : QueryBuilder) (b d : String) :
    makeOrderStr up (Order q b d) = " ORDER BY " ++ Join ((q.QueryOrders ++ [QueryOrder.mk b d]).map
      (fun qo : QueryOrder => "`" ++ qo.By ++ "` " ++ ToUpper up qo.Direction)) "," := by
  unfold makeOrderStr
  exact if_pos (by simp [Order])

theorem foldl_run_perm (q : QueryBuilder) (c op : String) (v : GoValue) (g b d : String)
    (o n : Int) (ms : List Mutation)
    (hp : ms.Perm [Mutation.where_ c op v, Mutation.group g, Mutation.order b d,
      Mutation.limit o n]) :
    ms.foldl Mutation.run q = Limit (Order (Group (Where q c op v) g) b d) o n := by
  have h := List.Perm.foldl_eq' hp.symm (run_comm c op v g b d o n) q
  rw [← h]
  rfl

/-! ## Lemmas on UPDATE and DELETE -/

theorem setAll_eq (q : QueryBuilder) (sets : List QuerySet) :
    setAll q sets = { q with QuerySets := q.QuerySets ++ sets } := by
  induction sets generalizing q with
  | nil => simp [setAll]
  | cons a sets ih =>
    have h := ih (Set q a.Col a.Param)
    simp only [setAll, List.foldl_cons] at h ⊢
    rw [h]
    simp [Set]

theorem ToUpdateStr_eq (q : QueryBuilder) :
    ToUpdateStr q = (makeWhereStr q).map (fun w =>
      "UPDATE `" ++ q.Table ++ "` "
        ++ (if (q.QuerySets.map setItem).length > 0
            then "SET " ++ Join (q.QuerySets.map setItem) "," else "")
        ++ " " ++ w) := by
  unfold ToUpdateStr
  cases makeWhereStr q with
  | none => rfl
  | some w => rfl

theorem ToDeleteStr_eq (q : QueryBuilder) :
    ToDeleteStr q = (makeWhereStr q).map (fun w => "DELETE FROM `" ++ q.Table ++ "` " ++ w) := by
  unfold ToDeleteStr
  cases makeWhereStr q with
  | none => rfl
  | some w => rfl

theorem setItem_quoteFree (s : QuerySet) (h : quoteFree s.Param = true) :
    setItem s = assignmentText s := by
  obtain ⟨c, v⟩ := s
  cases v with
  | string x =>
    have hq : quote ∉ x.data := of_decide_eq_true h
    show "`" ++ c ++ "`='" ++ Replace x quote "\\'" ++ "'" = "`" ++ c ++ "`=" ++ ("'" ++ x ++ "'")
    rw [Replace_absent x quote _ hq]
    apply String.ext
    simp only [data_append, List.append_assoc]
    rfl
  | int n => rfl
  | int64 n => rfl
  | _ => simp [quoteFree] at h

/-! ## Lemmas on GROUP BY, ORDER BY and the list of predicates -/

theorem Join_cons (a : String) (l : List String) (sep : String) (h : l ≠ []) :
    Join (a :: l) sep = a ++ sep ++ Join l sep := by
  cases l with
  | nil => exact absurd rfl h
  | cons b r => rfl

theorem splitRunes_ne_nil (sep : Char) (cur l : List Char) : splitRunes sep cur l ≠ [] := by
  induction l generalizing cur with
  | nil => simp [splitRunes]
  | cons c cs ih =>
    by_cases h : c = sep
    · simp [splitRunes, h]
    · simp only [splitRunes, if_neg h]
      exact ih _

theorem Join_quoteIdent_splitRunes (cur l : List Char) :
    (Join ((splitRunes ',' cur l).map quoteIdent) ",").data
      = backtick :: (cur.reverse ++ replaceRunes ',' [backtick, ',', backtick] l ++ [backtick]) := by
  induction l generalizing cur with
  | nil =>
    show ("`" ++ String.mk cur.reverse ++ "`").data = _
    simp only [data_append, replaceRunes, List.append_nil]
    rfl
  | cons c cs ih =>
    by_cases h : c = ','
    · subst h
      have hs : splitRunes ',' cur (',' :: cs) = String.mk cur.reverse :: splitRunes ',' [] cs := by
        simp [splitRunes]
      have hne : (splitRunes ',' [] cs).map quoteIdent ≠ [] := by
        simpa using splitRunes_ne_nil ',' [] cs
      rw [hs, List.map_cons, Join_cons _ _ _ hne]
      simp only [data_append, ih []]
      show ("`" ++ String.mk cur.reverse ++ "`").data ++ [','] ++ _ = _
      simp only [data_append, replaceRunes, if_pos, List.reverse_nil, List.nil_append,
        List.append_assoc, List.cons_append]
      rfl
    · have hs : splitRunes ',' cur (c :: cs) = splitRunes ',' (c :: cur) cs := by
        simp [splitRunes, h]
      rw [hs, ih (c :: cur)]
      simp [replaceRunes, h]

theorem groupText_eq (g : String) :
    "`" ++ Replace g ',' "`,`" ++ "`" = Join ((Split g ',').map quoteIdent) "," := by
  apply String.ext
  rw [Split, Join_quoteIdent_splitRunes]
  simp only [data_append, Replace]
  rfl

theorem Join_splitRunes (cur l : List Char) :
    (Join (splitRunes ',' cur l) ",").data = cur.reverse ++ l := by
  induction l generalizing cur with
  | nil => simp [splitRunes, Join]
  | cons c cs ih =>
    by_cases h : c = ','
    · subst h
      have hs : splitRunes ',' cur (',' :: cs) = String.mk cur.reverse :: splitRunes ',' [] cs := by
        simp [splitRunes]
      rw [hs, Join_cons _ _ _ (splitRunes_ne_nil ',' [] cs)]
      simp only [data_append, ih []]
      simp
    · have hs : splitRunes ',' cur (c :: cs) = splitRunes ',' (c :: cur) cs := by
        simp [splitRunes, h]
      rw [hs, ih (c :: cur)]
      simp

theorem Join_Split (g : String) : Join (Split g ',') "," = g := by
  apply String.ext
  rw [Split, Join_splitRunes]
  rfl

theorem splitRunes_no_sep (cur l : List Char) (hcur : ',' ∉ cur) :
    ∀ p ∈ splitRunes ',' cur l, ',' ∉ p.data := by
  induction l generalizing cur with
  | nil =>
    intro p hp
    simp only [splitRunes, List.mem_singleton] at hp
    subst hp
    simpa using hcur
  | cons c cs ih =>
    intro p hp
    by_cases h : c = ','
    · subst h
      simp only [splitRunes, if_pos, List.mem_cons] at hp
      rcases hp with rfl | hp
      · simpa using hcur
      · exact ih [] (by simp) p hp
    · simp only [splitRunes, if_neg h] at hp
      refine ih (c :: cur) ?_ p hp
      intro hm
      rcases List.mem_cons.mp hm with e | e
      · exact h e.symm
      · exact hcur e

theorem whereArr_length (ws : List QueryWhere) (arr : List String) (h : whereArr ws = some arr) :
    arr.length = ws.length := by
  induction ws generalizing arr with
  | nil =>
    have h2 : some ([] : List String) = some arr := h
    rw [← Option.some.inj h2]
    rfl
  | cons a ws ih =>
    cases ha : whereItem a with
    | none => simp [whereArr, ha] at h
    | some sa =>
      cases hr : whereArr ws with
      | none => simp [whereArr, ha, hr] at h
      | some r =>
        have h2 : whereArr (a :: ws) = some (sa :: r) := by simp only [whereArr, ha, hr]
        rw [h] at h2
        rw [Option.some.inj h2, List.length_cons, List.length_cons, ih r hr]

theorem whereArr_append_none (ws : List QueryWhere) (w : QueryWhere) (h : whereArr ws = none) :
    whereArr (ws ++ [w]) = none := by
  induction ws with
  | nil => simp [whereArr] at h
  | cons a ws ih =>
    cases ha : whereItem a with
    | none => simp [whereArr, ha]
    | some sa =>
      cases hr : whereArr ws with
      | none => simp [whereArr, ha, ih hr]
      | some r => simp [whereArr, ha, hr] at h

theorem Join_append_singleton_ne (l : List String) (x sep : String) (h : l ≠ []) :
    Join (l ++ [x]) sep = Join l sep ++ sep ++ x := by
  induction l with
  | nil => exact absurd rfl h
  | cons a l ih =>
    cases l with
    | nil => rfl
    | cons b r =>
      have h1 : Join (a :: (b :: r) ++ [x]) sep = a ++ sep ++ Join (b :: r ++ [x]) sep := rfl
      have h2 : Join (a :: b :: r) sep = a ++ sep ++ Join (b :: r) sep := rfl
      rw [h1, ih (List.cons_ne_nil _ _), h2]
      simp only [String.append_assoc]

theorem orderAll_eq (q : QueryBuilder) (os : List QueryOrder) :
    orderAll q os = { q with QueryOrders := q.QueryOrders ++ os } := by
  induction os generalizing q with
  | nil => simp [orderAll]
  | cons a os ih =>
    have h := ih (Order q a.By a.Direction)
    simp only [orderAll, List.foldl_cons] at h ⊢
    rw [h]
    simp [Order]

/-! ## Lemmas on the field list and on trimming -/

theorem Index_pos_iff (item : String) (h : startsWithParen item = false) :
    Index item '(' > 0 ↔ '(' ∈ item.data := by
  unfold Index
  unfold startsWithParen at h
  cases hd : item.data with
  | nil => simp
  | cons c r =>
    rw [hd] at h
    have hc : c ≠ '(' := by simpa using h
    by_cases hm : '(' ∈ r
    · have hm' : '(' ∈ c :: r := List.mem_cons_of_mem _ hm
      rw [if_pos hm']
      have hi : List.indexOf '(' (c :: r) = List.indexOf '(' r + 1 := by
        simp [List.indexOf_cons, hc]
      rw [hi]
      constructor
      · intro _; exact hm'
      · intro _; omega
    · have hm' : '(' ∉ c :: r := by
        intro e
        rcases List.mem_cons.mp e with e | e
        · exact hc e.symm
        · exact hm e
      rw [if_neg hm']
      constructor
      · intro e; omega
      · intro e; exact absurd e hm'

theorem fieldItem_eq (item : String) (h : startsWithParen item = false) :
    (if Index item '(' > 0 then item else "`" ++ item ++ "`") = fieldItemSpec item := by
  unfold fieldItemSpec quoteIdent
  by_cases hm : '(' ∈ item.data
  · rw [if_pos ((Index_pos_iff item h).mpr hm), if_pos hm]
  · rw [if_neg (fun e => hm ((Index_pos_iff item h).mp e)), if_neg hm]

theorem makeFieldStr_star (q : QueryBuilder) (h : q.QueryFields = "*") : makeFieldStr q = "*" := by
  unfold makeFieldStr
  rw [h]
  rfl

theorem makeFieldStr_set (q : QueryBuilder) (h1 : q.QueryFields ≠ "") (h2 : q.QueryFields ≠ "*") :
    makeFieldStr q = Join ((Split q.QueryFields ',').map
      (fun item => if Index item '(' > 0 then item else "`" ++ item ++ "`")) "," := by
  unfold makeFieldStr
  exact if_pos ⟨h1, h2⟩

theorem dropWhile_head (p : Char → Bool) (l : List Char) :
    l.dropWhile p = [] ∨ ∃ c t, l.dropWhile p = c :: t ∧ p c = false := by
  induction l with
  | nil => exact Or.inl rfl
  | cons x xs ih =>
    by_cases hx : p x = true
    · rw [List.dropWhile_cons_of_pos hx]
      exact ih
    · have hx' : p x = false := by simpa using hx
      rw [List.dropWhile_cons_of_neg (by simpa using hx')]
      exact Or.inr ⟨x, xs, rfl, hx'⟩

theorem TrimRight_cases (x : String) :
    TrimRight x " " = "" ∨ EndsNonSpace (TrimRight x " ") := by
  unfold TrimRight dropTrailing
  rcases dropWhile_head (fun c => decide (c ∈ (" " : String).data)) x.data.reverse with h | h
  · left
    rw [h]
    rfl
  · right
    obtain ⟨c, t, hct, hc⟩ := h
    rw [hct]
    refine ⟨t.reverse, c, by simp, ?_⟩
    intro e
    subst e
    simp at hc

theorem ToQueryStr_isSome (up : Char → Char) (q : QueryBuilder) :
    (ToQueryStr up q).isSome = (makeWhereStr q).isSome := by
  rw [ToQueryStr_eq]
  cases makeWhereStr q with
  | none => rfl
  | some w => rfl

theorem ToQueryStr_trimmed (up : Char → Char) (q : QueryBuilder) (r : String)
    (h : ToQueryStr up q = some r) : StartsNonSpace r ∧ EndsNonSpace r := by
  rw [ToQueryStr_eq] at h
  cases hw : makeWhereStr q with
  | none => rw [hw] at h; exact absurd h (by simp)
  | some w =>
    rw [hw] at h
    have hr := Option.some.inj h
    rw [← hr]
    constructor
    · repeat apply startsNonSpace_append
      exact startsNonSpace_select
    · rcases TrimRight_cases (" " ++ w ++ " " ++ makeGroupStr q ++ " " ++ makeOrderStr up q
        ++ " " ++ makeLimitStr q) with e | e
      · beta_reduce
        rw [e, String.append_empty]
        exact endsNonSpace_backtick _
      · exact endsNonSpace_append _ _ e

/-! ## Lemmas on the transport token -/

theorem char_range (c : Char) :
    c.toNat < 55296 ∨ (57343 < c.toNat ∧ c.toNat < 1114112) := by
  have h := c.valid
  simpa [UInt32.isValidChar, Nat.isValidChar, Char.toNat] using h

theorem decodeRune_one (v : Nat) (rest : List Nat) (h : v < 128) :
    decodeRune (v :: rest) = some (v, rest) := by
  simp only [decodeRune, if_pos h]

theorem decodeRune_two (v : Nat) (rest : List Nat) (h1 : 128 ≤ v) (h2 : v < 2048) :
    decodeRune ((192 + v / 64) :: (128 + v % 64) :: rest) = some (v, rest) := by
  have a1 : ¬ (192 + v / 64 < 128) := by omega
  have a2 : ¬ (192 + v / 64 < 194) := by omega
  have a3 : 192 + v / 64 < 224 := by omega
  have a4 : 128 ≤ 128 + v % 64 ∧ 128 + v % 64 ≤ 191 := by omega
  have a5 : (192 + v / 64 - 192) * 64 + (128 + v % 64 - 128) = v := by omega
  simp only [decodeRune, if_neg a1, if_neg a2, if_pos a3, if_pos a4, a5]

theorem decodeRune_three (v : Nat) (rest : List Nat) (h1 : 2048 ≤ v) (h2 : v < 65536)
    (h3 : v < 55296 ∨ 57343 < v) :
    decodeRune ((224 + v / 4096) :: (128 + v / 64 % 64) :: (128 + v % 64) :: rest)
      = some (v, rest) := by
  have a1 : ¬ (224 + v / 4096 < 128) := by omega
  have a2 : ¬ (224 + v / 4096 < 194) := by omega
  have a3 : ¬ (224 + v / 4096 < 224) := by omega
  have a4 : 224 + v / 4096 < 240 := by omega
  have a5 : (if 224 + v / 4096 = 224 then 160 else 128) ≤ 128 + v / 64 % 64
      ∧ 128 + v / 64 % 64 ≤ (if 224 + v / 4096 = 237 then 159 else 191)
      ∧ 128 ≤ 128 + v % 64 ∧ 128 + v % 64 ≤ 191 := by
    refine ⟨?_, ?_, ?_, ?_⟩
    · split_ifs <;> omega
    · split_ifs <;> omega
    · omega
    · omega
  have a6 : (224 + v / 4096 - 224) * 4096 + (128 + v / 64 % 64 - 128) * 64
      + (128 + v % 64 - 128) = v := by omega
  simp only [decodeRune, if_neg a1, if_neg a2, if_neg a3, if_pos a4, if_pos a5, a6]

theorem decodeRune_four (v : Nat) (rest : List Nat) (h1 : 65536 ≤ v) (h2 : v < 1114112) :
    decodeRune ((240 + v / 262144) :: (128 + v / 4096 % 64) :: (128 + v / 64 % 64)
      :: (128 + v % 64) :: rest) = some (v, rest) := by
  have a1 : ¬ (240 + v / 262144 < 128) := by omega
  have a2 : ¬ (240 + v / 262144 < 194) := by omega
  have a3 : ¬ (240 + v / 262144 < 224) := by omega
  have a4 : ¬ (240 + v / 262144 < 240) := by omega
  have a5 : 240 + v / 262144 < 245 := by omega
  have a6 : (if 240 + v / 262144 = 240 then 144 else 128) ≤ 128 + v / 4096 % 64
      ∧ 128 + v / 4096 % 64 ≤ (if 240 + v / 262144 = 244 then 143 else 191)
      ∧ 128 ≤ 128 + v / 64 % 64 ∧ 128 + v / 64 % 64 ≤ 191
      ∧ 128 ≤ 128 + v % 64 ∧ 128 + v % 64 ≤ 191 := by
    refine ⟨?_, ?_, ?_, ?_, ?_, ?_⟩
    · split_ifs <;> omega
    · split_ifs <;> omega
    · omega
    · omega
    · omega
    · omega
  have a7 : (240 + v / 262144 - 240) * 262144 + (128 + v / 4096 % 64 - 128) * 4096
      + (128 + v / 64 % 64 - 128) * 64 + (128 + v % 64 - 128) = v := by omega
  simp only [decodeRune, if_neg a1, if_neg a2, if_neg a3, if_neg a4, if_pos a5, if_pos a6, a7]

theorem decodeRune_encodeRune (c : Char) (rest : List Nat) :
    decodeRune (encodeRune c ++ rest) = some (c.toNat, rest) := by
  have hr := char_range c
  unfold encodeRune
  by_cases h1 : c.toNat < 128
  · rw [if_pos h1]
    exact decodeRune_one _ rest h1
  · rw [if_neg h1]
    by_cases h2 : c.toNat < 2048
    · rw [if_pos h2]
      exact decodeRune_two _ rest (by omega) h2
    · rw [if_neg h2]
      by_cases h3 : c.toNat < 65536
      · rw [if_pos h3]
        exact decodeRune_three _ rest (by omega) h3 (by omega)
      · rw [if_neg h3]
        exact decodeRune_four _ rest (by omega) (by omega)

theorem encodeRune_cons (c : Char) : ∃ b bs, encodeRune c = b :: bs := by
  unfold encodeRune
  split_ifs <;> exact ⟨_, _, rfl⟩

theorem decodeBytes_encodeRunes (cs : List Char) :
    ∀ fuel, cs.length ≤ fuel → decodeBytes fuel (encodeRunes cs) = cs := by
  induction cs with
  | nil => intro fuel _; cases fuel <;> rfl
  | cons c cs ih =>
    intro fuel hf
    cases fuel with
    | zero => simp at hf
    | succ fuel =>
      obtain ⟨b, bs, hb⟩ := encodeRune_cons c
      have hd := decodeRune_encodeRune c (encodeRunes cs)
      show decodeBytes (fuel + 1) (encodeRune c ++ encodeRunes cs) = _
      rw [hb] at hd ⊢
      show (match decodeRune (b :: (bs ++ encodeRunes cs)) with
        | some (v, r) => Char.ofNat v :: decodeBytes fuel r
        | none => Char.ofNat 65533 :: decodeBytes fuel (bs ++ encodeRunes cs)) = _
      rw [show b :: (bs ++ encodeRunes cs) = b :: bs ++ encodeRunes cs from rfl, hd]
      show Char.ofNat c.toNat :: decodeBytes fuel (encodeRunes cs) = _
      rw [Char.ofNat_toNat, ih fuel (by simpa using hf)]

theorem length_le_encodeRunes (cs : List Char) : cs.length ≤ (encodeRunes cs).length := by
  induction cs with
  | nil => exact Nat.le_refl _
  | cons c cs ih =>
    obtain ⟨b, bs, hb⟩ := encodeRune_cons c
    simp only [encodeRunes, hb, List.length_cons, List.length_append]
    omega

theorem jsonStringTrip_id (s : String) : jsonStringTrip s = s := by
  unfold jsonStringTrip utf8Coerce
  rw [decodeBytes_encodeRunes s.data _ (length_le_encodeRunes s.data)]

theorem map_jsonStringTrip (l : List String) : l.map jsonStringTrip = l := by
  conv_rhs => rw [← List.map_id l]
  exact List.map_congr_left (fun s _ => jsonStringTrip_id s)

theorem allSome_map {α β : Type} (l : List α) (f : α → Option β) (g : α → β)
    (h : ∀ a ∈ l, f a = some (g a)) : allSome (l.map f) = some (l.map g) := by
  induction l with
  | nil => rfl
  | cons a l ih =>
    have h1 := h a (List.mem_cons_self _ _)
    have h2 := ih (fun x hx => h x (List.mem_cons_of_mem _ hx))
    simp only [List.map_cons, h1, allSome, h2]

theorem addVal_eq_valueText (a : QueryAdd) : addVal a = valueText a.Param := by
  obtain ⟨c, v⟩ := a
  cases v <;> rfl

theorem setItem_eq_valueText (s : QuerySet) :
    setItem s = "`" ++ s.Col ++ "`=" ++ valueText s.Param := by
  obtain ⟨c, v⟩ := s
  cases v with
  | string x =>
    show "`" ++ c ++ "`='" ++ Replace x quote "\\'" ++ "'"
      = "`" ++ c ++ "`=" ++ ("'" ++ Replace x quote "\\'" ++ "'")
    apply String.ext
    simp only [data_append, List.append_assoc]
    rfl
  | _ => rfl

theorem tripValue_of_marshal (lib : JsonLib) (v : GoValue) (j : JsonValue)
    (h : marshalParam lib v = some j) :
    marshalParam lib v = some ((marshalParam lib v).getD (.string ""))
    ∧ tripValue lib v = unmarshalParam lib j := by
  unfold tripValue
  rw [h]
  exact ⟨rfl, rfl⟩

theorem smallInt_fmtV (lib : JsonLib) (n : Int) (h : smallInt n = true) :
    (float64OfNumber lib (.ofInt n)).fmtV = Itoa n := by
  have hn : n.natAbs < 1000000 := of_decide_eq_true h
  show (if n.natAbs < 1000000 then Itoa n else _) = Itoa n
  rw [if_pos hn]

theorem setTrips_marshal (lib : JsonLib) (v : GoValue) (h : setTrips lib v = true) :
    ∃ j, marshalParam lib v = some j
      ∧ valueText (unmarshalParam lib j) = valueText v := by
  cases v with
  | string s =>
    refine ⟨.string s, ?_, rfl⟩
    show some (JsonValue.string (jsonStringTrip s)) = _
    rw [jsonStringTrip_id]
  | int n => exact ⟨.number (.ofInt n), rfl, smallInt_fmtV lib n h⟩
  | int64 n => exact ⟨.number (.ofInt n), rfl, smallInt_fmtV lib n h⟩
  | float64 x =>
    have hx : x.finite = true := h
    refine ⟨.number (.ofFloat x), ?_, rfl⟩
    show (if x.finite = true then some (JsonValue.number (.ofFloat x)) else none) = _
    rw [if_pos hx]
  | strings l =>
    refine ⟨.strings l, ?_, rfl⟩
    show some (JsonValue.strings (l.map jsonStringTrip)) = _
    rw [map_jsonStringTrip]
  | ints l =>
    have hs : l.all smallInt = true := by
      have h' : (!l.isEmpty && l.all smallInt) = true := h
      exact (Bool.and_eq_true _ _ ▸ h').2
    refine ⟨.numbers (l.map JsonNumber.ofInt), rfl, ?_⟩
    show "[" ++ Join ((l.map JsonNumber.ofInt).map (fun n => (float64OfNumber lib n).fmtV)) " "
      ++ "]" = "[" ++ Join (l.map Itoa) " " ++ "]"
    rw [List.map_map]
    have hm : l.map ((fun n => (float64OfNumber lib n).fmtV) ∘ JsonNumber.ofInt) = l.map Itoa :=
      List.map_congr_left (fun n hn => smallInt_fmtV lib n (List.all_eq_true.mp hs n hn))
    rw [hm]
  | int64s l =>
    have hs : l.all smallInt = true := by
      have h' : (!l.isEmpty && l.all smallInt) = true := h
      exact (Bool.and_eq_true _ _ ▸ h').2
    refine ⟨.numbers (l.map JsonNumber.ofInt), rfl, ?_⟩
    show "[" ++ Join ((l.map JsonNumber.ofInt).map (fun n => (float64OfNumber lib n).fmtV)) " "
      ++ "]" = "[" ++ Join (l.map Itoa) " " ++ "]"
    rw [List.map_map]
    have hm : l.map ((fun n => (float64OfNumber lib n).fmtV) ∘ JsonNumber.ofInt) = l.map Itoa :=
      List.map_congr_left (fun n hn => smallInt_fmtV lib n (List.all_eq_true.mp hs n hn))
    rw [hm]
  | float64s l =>
    have hs : l.all Float64.finite = true := by
      have h' : (!l.isEmpty && l.all Float64.finite) = true := h
      exact (Bool.and_eq_true _ _ ▸ h').2
    refine ⟨.numbers (l.map JsonNumber.ofFloat), ?_, ?_⟩
    · show (if l.all Float64.finite = true then some (JsonValue.numbers (l.map JsonNumber.ofFloat))
        else none) = _
      rw [if_pos hs]
    · show "[" ++ Join ((l.map JsonNumber.ofFloat).map (fun n => (float64OfNumber lib n).fmtV)) " "
        ++ "]" = "[" ++ Join (l.map Float64.fmtV) " " ++ "]"
      rw [List.map_map]
      rfl
  | other v =>
    have h' : (match lib.otherTrip v with
      | some back => decide (valueText back = v)
      | none => false) = true := h
    cases ho : lib.otherTrip v with
    | none => rw [ho] at h'; exact absurd h' (by simp)
    | some back =>
      rw [ho] at h'
      refine ⟨.other back, ?_, of_decide_eq_true h'⟩
      show (match lib.otherTrip v with
        | none => none
        | some back => some (JsonValue.other back)) = _
      rw [ho]

theorem whereTrips_marshal (lib : JsonLib) (v : GoValue) (h : whereTrips lib v = true) :
    ∃ j, marshalParam lib v = some j
      ∧ ∀ c op : String, whereItem ⟨c, op, unmarshalParam lib j⟩ = whereItem ⟨c, op, v⟩ := by
  cases v with
  | string s =>
    refine ⟨.string s, ?_, fun _ _ => rfl⟩
    show some (JsonValue.string (jsonStringTrip s)) = _
    rw [jsonStringTrip_id]
  | float64 x =>
    have hx : x.finite = true := h
    refine ⟨.number (.ofFloat x), ?_, fun _ _ => rfl⟩
    show (if x.finite = true then some (JsonValue.number (.ofFloat x)) else none) = _
    rw [if_pos hx]
  | other v =>
    cases ho : lib.otherTrip v with
    | none => simp [whereTrips, ho] at h
    | some back =>
      cases back with
      | other u =>
        refine ⟨.other (.other u), ?_, fun _ _ => rfl⟩
        show (match lib.otherTrip v with
          | none => none
          | some back => some (JsonValue.other back)) = _
        rw [ho]
      | _ => simp [whereTrips, ho] at h
  | _ => simp [whereTrips] at h

theorem whereArr_map_congr (f : QueryWhere → QueryWhere) (ws : List QueryWhere)
    (h : ∀ w ∈ ws, whereItem (f w) = whereItem w) : whereArr (ws.map f) = whereArr ws := by
  induction ws with
  | nil => rfl
  | cons a ws ih =>
    have h1 := h a (List.mem_cons_self _ _)
    have h2 := ih (fun x hx => h x (List.mem_cons_of_mem _ hx))
    simp only [List.map_cons, whereArr, h1, h2]

theorem marshalParam_getD (lib : JsonLib) (v : GoValue) (j : JsonValue)
    (h : marshalParam lib v = some j) :
    marshalParam lib v = some ((marshalParam lib v).getD (.string "")) := by
  rw [h]
  rfl

theorem roundTrip_tripBuilder (lib : JsonLib) (q : QueryBuilder)
    (ha : ∀ a ∈ q.QueryAdds, ∃ j, marshalParam lib a.Param = some j)
    (hs : ∀ a ∈ q.QuerySets, ∃ j, marshalParam lib a.Param = some j)
    (hw : ∀ w ∈ q.QueryWheres, ∃ j, marshalParam lib w.Param = some j) :
    ∃ str, Serialize lib q = some str
      ∧ UnserializeQueryBuilder lib str = some (tripBuilder lib q) := by
  have e1 := allSome_map q.QueryAdds
    (fun a => (marshalParam lib a.Param).map (JsonAdd.mk (jsonStringTrip a.Col)))
    (fun a => JsonAdd.mk (jsonStringTrip a.Col) ((marshalParam lib a.Param).getD (.string "")))
    (fun a h => by
      obtain ⟨j, hj⟩ := ha a h
      show (marshalParam lib a.Param).map (JsonAdd.mk (jsonStringTrip a.Col)) = _
      rw [marshalParam_getD lib a.Param j hj]
      rfl)
  have e2 := allSome_map q.QuerySets
    (fun a => (marshalParam lib a.Param).map (JsonAdd.mk (jsonStringTrip a.Col)))
    (fun a => JsonAdd.mk (jsonStringTrip a.Col) ((marshalParam lib a.Param).getD (.string "")))
    (fun a h => by
      obtain ⟨j, hj⟩ := hs a h
      show (marshalParam lib a.Param).map (JsonAdd.mk (jsonStringTrip a.Col)) = _
      rw [marshalParam_getD lib a.Param j hj]
      rfl)
  have e3 := allSome_map q.QueryWheres
    (fun w => (marshalParam lib w.Param).map
      (JsonWhere.mk (jsonStringTrip w.Col) (jsonStringTrip w.Op)))
    (fun w => JsonWhere.mk (jsonStringTrip w.Col) (jsonStringTrip w.Op)
      ((marshalParam lib w.Param).getD (.string "")))
    (fun w h => by
      obtain ⟨j, hj⟩ := hw w h
      show (marshalParam lib w.Param).map
        (JsonWhere.mk (jsonStringTrip w.Col) (jsonStringTrip w.Op)) = _
      rw [marshalParam_getD lib w.Param j hj]
      rfl)
  refine ⟨_, by unfold Serialize; rw [e1, e2, e3], ?_⟩
  unfold UnserializeQueryBuilder tripBuilder
  refine congrArg some ?_
  have b1 : (q.QueryAdds.map (fun a => JsonAdd.mk (jsonStringTrip a.Col)
        ((marshalParam lib a.Param).getD (.string "")))).map
        (fun a => ({ Col := a.Col, Param := unmarshalParam lib a.Param } : QueryAdd))
      = q.QueryAdds.map (fun a => { Col := a.Col, Param := tripValue lib a.Param }) := by
    rw [List.map_map]
    exact List.map_congr_left (fun a _ => by
      show ({ Col := jsonStringTrip a.Col, Param := unmarshalParam lib _ } : QueryAdd) = _
      rw [jsonStringTrip_id]
      rfl)
  have b2 : (q.QuerySets.map (fun a => JsonAdd.mk (jsonStringTrip a.Col)
        ((marshalParam lib a.Param).getD (.string "")))).map
        (fun a => ({ Col := a.Col, Param := unmarshalParam lib a.Param } : QuerySet))
      = q.QuerySets.map (fun a => { Col := a.Col, Param := tripValue lib a.Param }) := by
    rw [List.map_map]
    exact List.map_congr_left (fun a _ => by
      show ({ Col := jsonStringTrip a.Col, Param := unmarshalParam lib _ } : QuerySet) = _
      rw [jsonStringTrip_id]
      rfl)
  have b3 : (q.QueryWheres.map (fun w => JsonWhere.mk (jsonStringTrip w.Col)
        (jsonStringTrip w.Op) ((marshalParam lib w.Param).getD (.string "")))).map
        (fun w => ({ Col := w.Col, Op := w.Op, Param := unmarshalParam lib w.Param } : QueryWhere))
      = q.QueryWheres.map
        (fun w => { Col := w.Col, Op := w.Op, Param := tripValue lib w.Param }) := by
    rw [List.map_map]
    exact List.map_congr_left (fun w _ => by
      show ({ Col := jsonStringTrip w.Col, Op := jsonStringTrip w.Op,
              Param := unmarshalParam lib _ } : QueryWhere) = _
      rw [jsonStringTrip_id, jsonStringTrip_id]
      rfl)
  have b4 : q.QueryOrders.map
        (fun o => ({ By := jsonStringTrip o.By, Direction := jsonStringTrip o.Direction }
          : QueryOrder))
      = q.QueryOrders := by
    conv_rhs => rw [← List.map_id q.QueryOrders]
    exact List.map_congr_left (fun o _ => by
      rw [jsonStringTrip_id, jsonStringTrip_id]
      rfl)
  show ({ Table := jsonStringTrip q.Table, QueryFields := jsonStringTrip q.QueryFields,
          QueryAdds := _, QuerySets := _, QueryOrders := _, QueryLimit := q.QueryLimit,
          QueryWheres := _, QueryGroup := jsonStringTrip q.QueryGroup } : QueryBuilder) = _
  rw [b1, b2, b3, b4, jsonStringTrip_id, jsonStringTrip_id, jsonStringTrip_id]

theorem tripValue_valueText (lib : JsonLib) (v : GoValue) (h : setTrips lib v = true) :
    valueText (tripValue lib v) = valueText v := by
  obtain ⟨j, hj, hv⟩ := setTrips_marshal lib v h
  rw [(tripValue_of_marshal lib v j hj).2, hv]

theorem tripValue_whereItem (lib : JsonLib) (w : QueryWhere) (h : whereTrips lib w.Param = true) :
    whereItem { Col := w.Col, Op := w.Op, Param := tripValue lib w.Param } = whereItem w := by
  obtain ⟨j, hj, hv⟩ := whereTrips_marshal lib w.Param h
  rw [(tripValue_of_marshal lib w.Param j hj).2, hv]

theorem makeWhereStr_tripBuilder (lib : JsonLib) (q : QueryBuilder)
    (hw : ∀ w ∈ q.QueryWheres, whereTrips lib w.Param = true) :
    makeWhereStr (tripBuilder lib q) = makeWhereStr q := by
  unfold makeWhereStr
  show (match whereArr (q.QueryWheres.map
      (fun w => { Col := w.Col, Op := w.Op, Param := tripValue lib w.Param })) with
    | none => none
    | some arr => some (if arr.length > 0 then " WHERE " ++ Join arr " AND " else "")) = _
  rw [whereArr_map_congr _ _ (fun w h => tripValue_whereItem lib w (hw w h))]

theorem ToInsertStr_tripBuilder (lib : JsonLib) (q : QueryBuilder)
    (ha : ∀ a ∈ q.QueryAdds, setTrips lib a.Param = true) :
    ToInsertStr (tripBuilder lib q) = ToInsertStr q := by
  unfold ToInsertStr
  show "INSERT INTO `" ++ q.Table ++ "` ("
      ++ Join ((q.QueryAdds.map (fun a => ({ Col := a.Col, Param := tripValue lib a.Param }
          : QueryAdd))).map (fun qa => "`" ++ qa.Col ++ "`")) ","
      ++ ") VALUES("
      ++ Join ((q.QueryAdds.map (fun a => ({ Col := a.Col, Param := tripValue lib a.Param }
          : QueryAdd))).map addVal) ","
      ++ ")" = _
  rw [List.map_map, List.map_map]
  have h1 : q.QueryAdds.map ((fun qa : QueryAdd => "`" ++ qa.Col ++ "`")
        ∘ (fun a => ({ Col := a.Col, Param := tripValue lib a.Param } : QueryAdd)))
      = q.QueryAdds.map (fun qa => "`" ++ qa.Col ++ "`") := rfl
  have h2 : q.QueryAdds.map (addVal
        ∘ (fun a => ({ Col := a.Col, Param := tripValue lib a.Param } : QueryAdd)))
      = q.QueryAdds.map addVal :=
    List.map_congr_left (fun a h => by
      show addVal { Col := a.Col, Param := tripValue lib a.Param } = addVal a
      rw [addVal_eq_valueText, addVal_eq_valueText]
      exact tripValue_valueText lib a.Param (ha a h))
  rw [h1, h2]

theorem ToUpdateStr_tripBuilder (lib : JsonLib) (q : QueryBuilder)
    (hs : ∀ a ∈ q.QuerySets, setTrips lib a.Param = true)
    (hw : ∀ w ∈ q.QueryWheres, whereTrips lib w.Param = true) :
    ToUpdateStr (tripBuilder lib q) = ToUpdateStr q := by
  rw [ToUpdateStr_eq, ToUpdateStr_eq, makeWhereStr_tripBuilder lib q hw]
  have h2 : (tripBuilder lib q).QuerySets.map setItem = q.QuerySets.map setItem := by
    show (q.QuerySets.map (fun a => ({ Col := a.Col, Param := tripValue lib a.Param }
      : QuerySet))).map setItem = _
    rw [List.map_map]
    exact List.map_congr_left (fun a h => by
      show setItem { Col := a.Col, Param := tripValue lib a.Param } = setItem a
      rw [setItem_eq_valueText, setItem_eq_valueText]
      show "`" ++ a.Col ++ "`=" ++ valueText (tripValue lib a.Param) = _
      rw [tripValue_valueText lib a.Param (hs a h)])
  rw [h2]
  rfl

theorem ToDeleteStr_tripBuilder (lib : JsonLib) (q : QueryBuilder)
    (hw : ∀ w ∈ q.QueryWheres, whereTrips lib w.Param = true) :
    ToDeleteStr (tripBuilder lib q) = ToDeleteStr q := by
  rw [ToDeleteStr_eq, ToDeleteStr_eq, makeWhereStr_tripBuilder lib q hw]
  rfl

theorem ToQueryStr_tripBuilder (lib : JsonLib) (up : Char → Char) (q : QueryBuilder)
    (hw : ∀ w ∈ q.QueryWheres, whereTrips lib w.Param = true) :
    ToQueryStr up (tripBuilder lib q) = ToQueryStr up q := by
  unfold ToQueryStr
  rw [makeWhereStr_tripBuilder lib q hw]
  rfl

theorem roundTrip_eq (lib : JsonLib) (q : QueryBuilder)
    (ha : ∀ a ∈ q.QueryAdds, ∃ j, marshalParam lib a.Param = some j)
    (hs : ∀ a ∈ q.QuerySets, ∃ j, marshalParam lib a.Param = some j)
    (hw : ∀ w ∈ q.QueryWheres, ∃ j, marshalParam lib w.Param = some j) :
    roundTrip lib q = some (tripBuilder lib q) := by
  obtain ⟨str, h1, h2⟩ := roundTrip_tripBuilder lib q ha hs hw
  unfold roundTrip
  rw [h1]
  exact h2

/-! ## The claims -/

/-- C1 (as stated, refuted): on the specification's own example the statement
has two spaces between the quoted table name and `WHERE`, so it is not the
single-spaced text the claim gives. -/
theorem C1_counterexample :
    ¬ ∃ up : Char → Char,
      ToQueryStr up (Where (Where (CreateQueryBuilder "t") "id" "=" (.int 5))
          "name" "=" (.string "O'Brien"))
        = some "SELECT * FROM `t` WHERE `id` = 5 AND `name` = 'O\\'Brien'" := by
  rintro ⟨up, h⟩
  rw [ToQueryStr_no_orders up id _ rfl] at h
  revert h
  decide

/-- C1 (amended): for every table name `t` and every builder created for `t`
whose only clauses are one or more WHERE predicates with integer or string
values, `ToQueryStr` returns `SELECT * FROM`, the quoted table name, two
spaces, `WHERE` and the predicates rendered as quoted column, operator and
literal, joined by ` AND `. -/
theorem C1_select_where_only (up : Char → Char) (t : String) (ps : List QueryWhere)
    (hne : ps ≠ []) (hv : ∀ p ∈ ps, intOrString p.Param = true) :
    ToQueryStr up (whereAll (CreateQueryBuilder t) ps)
      = some ("SELECT * FROM `" ++ t ++ "`  WHERE "
          ++ Join (ps.map predicateText) " AND ") := by
  rw [ToQueryStr_eq, whereAll_eq]
  have hw : makeWhereStr
      { CreateQueryBuilder t with QueryWheres := (CreateQueryBuilder t).QueryWheres ++ ps }
      = some (" WHERE " ++ Join (ps.map predicateText) " AND ") :=
    makeWhereStr_intOrString
      { CreateQueryBuilder t with QueryWheres := (CreateQueryBuilder t).QueryWheres ++ ps }
      hne hv
  have hj : EndsNonSpace (" WHERE " ++ Join (ps.map predicateText) " AND ") := by
    apply endsNonSpace_append
    apply endsNonSpace_Join _ _ (by simpa using hne)
    intro s hs
    obtain ⟨p, hp, rfl⟩ := List.mem_map.mp hs
    exact endsNonSpace_predicateText p (hv p hp)
  rw [hw, makeFieldStr_unset _ rfl, makeGroupStr_unset _ rfl, makeOrderStr_unset up _ rfl,
    makeLimitStr_unset _ (le_refl (0 : Int))]
  refine congrArg some ?_
  beta_reduce
  rw [TrimRight_clauses_where_only _ hj]
  apply String.ext
  simp only [data_append, List.append_assoc]
  rfl

/-- C1 witness: the specification's example, with its two spaces. -/
theorem C1_select_where_only_witness :
    ([⟨"id", "=", .int 5⟩, ⟨"name", "=", .string "O'Brien"⟩] : List QueryWhere) ≠ []
    ∧ (∀ p ∈ ([⟨"id", "=", .int 5⟩, ⟨"name", "=", .string "O'Brien"⟩] : List QueryWhere),
        intOrString p.Param = true)
    ∧ ToQueryStr id (Where (Where (CreateQueryBuilder "t") "id" "=" (.int 5))
          "name" "=" (.string "O'Brien"))
        = some "SELECT * FROM `t`  WHERE `id` = 5 AND `name` = 'O\\'Brien'" :=
  ⟨by decide, by decide,
    C1_select_where_only id "t" [⟨"id", "=", .int 5⟩, ⟨"name", "=", .string "O'Brien"⟩]
      (by decide) (by decide)⟩

/-- C2: for every table and every additions list built by `Add` whose values
are integers or strings with neither a quote nor a backslash, `ToInsertStr`
is `INSERT INTO`, the quoted table, the quoted columns in insertion order and
`VALUES(...)` with the decimal digits or the single-quoted strings in the same
order; any builder with the same table and additions renders the same text,
whatever its predicates, group, orderings and limit. -/
theorem C2_insert (q : QueryBuilder) (adds : List QueryAdd) (h0 : q.QueryAdds = [])
    (hv : ∀ a ∈ adds, plainValue a.Param = true) :
    ToInsertStr (addAll q adds)
      = "INSERT INTO `" ++ q.Table ++ "` ("
        ++ Join (adds.map (fun a => "`" ++ a.Col ++ "`")) "," ++ ") VALUES("
        ++ Join (adds.map (fun a => plainLiteral a.Param)) "," ++ ")"
    ∧ ∀ b : QueryBuilder, b.Table = q.Table → b.QueryAdds = (addAll q adds).QueryAdds →
        ToInsertStr b = ToInsertStr (addAll q adds) := by
  have hadds : (addAll q adds).QueryAdds = adds := by
    rw [addAll_eq]
    show q.QueryAdds ++ adds = adds
    rw [h0, List.nil_append]
  have htab : (addAll q adds).Table = q.Table := by
    rw [addAll_eq]
  constructor
  · rw [ToInsertStr_plain _ (by rw [hadds]; exact hv), hadds, htab]
  · intro b hb hba
    unfold ToInsertStr
    rw [hba, hb, htab]

/-- C2 witness: the specification's example `Add("a",1).Add("b","x")` on table `t`. -/
theorem C2_insert_witness :
    (CreateQueryBuilder "t").QueryAdds = []
    ∧ (∀ a ∈ ([⟨"a", .int 1⟩, ⟨"b", .string "x"⟩] : List QueryAdd), plainValue a.Param = true)
    ∧ ToInsertStr (Add (Add (CreateQueryBuilder "t") "a" (.int 1)) "b" (.string "x"))
        = "INSERT INTO `t` (`a`,`b`) VALUES(1,'x')" :=
  ⟨rfl, by decide,
    (C2_insert (CreateQueryBuilder "t") [⟨"a", .int 1⟩, ⟨"b", .string "x"⟩] rfl (by decide)).1⟩

/-- C3: a string used as the value of a WHERE predicate, alone or as an element
of a string list, is rendered as a quote, the text with every quote and every
backslash prefixed by one backslash, and a quote; reading that body back with
a backslash taking the next rune literally stops at the closing quote, not
before, and yields the original text. -/
theorem C3_where_string_literal (c op : String) (s : String) :
    whereItem ⟨c, op, .string s⟩ = some ("`" ++ c ++ "` " ++ op ++ " " ++ quotedLiteral s)
    ∧ (∀ l : List String, whereItem ⟨c, op, .strings l⟩
        = some ("`" ++ c ++ "` " ++ op ++ " (" ++ Join (l.map quotedLiteral) "," ++ ")"))
    ∧ (∀ rest : List Char,
        readLiteral (prefixBackslash s.data ++ quote :: rest) = some (s.data, rest)) := by
  refine ⟨?_, ?_, ?_⟩
  · show some ("`" ++ c ++ "` " ++ op ++ " " ++ ("'" ++ ReplaceAllString s ++ "'")) = _
    rw [ReplaceAllString_eq]
  · intro l
    show some ("`" ++ c ++ "` " ++ op ++ " ("
      ++ Join (l.map (fun s => "'" ++ ReplaceAllString s ++ "'")) "," ++ ")") = _
    have hm : l.map (fun s => "'" ++ ReplaceAllString s ++ "'") = l.map quotedLiteral :=
      List.map_congr_left (fun x _ => ReplaceAllString_eq x)
    rw [hm]
  · intro rest
    rw [← escapeRunes_eq]
    exact readLiteral_escapeRunes s.data rest

/-- C4 (the code at the failing input): for the one-rune string `\` the INSERT
and UPDATE statements carry the literal `'\'` with the backslash unescaped,
where the WHERE clause renders `'\\'`; read back, the backslash of the
INSERT literal swallows the closing quote and the literal does not end. -/
theorem C4_insert_update_backslash :
    ToInsertStr (Add (CreateQueryBuilder "t") "c" (.string "\\"))
      = "INSERT INTO `t` (`c`) VALUES('\\')"
    ∧ ToUpdateStr (Set (CreateQueryBuilder "t") "c" (.string "\\"))
      = some "UPDATE `t` SET `c`='\\' "
    ∧ whereItem ⟨"c", "=", .string "\\"⟩ = some "`c` = '\\\\'"
    ∧ readLiteral ("\\'").data = none
    ∧ readLiteral ("\\\\'").data = some (("\\").data, []) := by
  decide

/-- C5 (the code at the failing input): a predicate whose value is a non-empty
list of 64-bit integers makes `strconv.FormatInt` panic on base 64, so the
SELECT, UPDATE and DELETE renderings do not return. -/
theorem C5_int64_list_panics :
    FormatInt 1 64 = none
    ∧ (∀ up : Char → Char,
        ToQueryStr up (Where (CreateQueryBuilder "t") "id" "IN" (.int64s [1])) = none)
    ∧ ToUpdateStr (Where (CreateQueryBuilder "t") "id" "IN" (.int64s [1])) = none
    ∧ ToDeleteStr (Where (CreateQueryBuilder "t") "id" "IN" (.int64s [1])) = none := by
  refine ⟨by decide, fun up => ?_, by decide, by decide⟩
  rw [ToQueryStr_no_orders up id _ rfl]
  decide

/-- C6: a predicate whose value is a list of ints renders as the quoted
column, the operator and the signed decimal texts of the elements in list
order, comma-joined without spaces inside parentheses; added to any builder
whose earlier predicates render, it makes `ToQueryStr` return a statement that
contains this text. -/
theorem C6_where_int_list (c op : String) (l : List Int) :
    whereItem ⟨c, op, .ints l⟩
      = some ("`" ++ c ++ "` " ++ op ++ " (" ++ Join (l.map Itoa) "," ++ ")")
    ∧ ∀ (up : Char → Char) (q : QueryBuilder) (arr : List String),
        whereArr q.QueryWheres = some arr →
        ∃ pre post, ToQueryStr up (Where q c op (.ints l))
          = some (pre ++ ("`" ++ c ++ "` " ++ op ++ " (" ++ Join (l.map Itoa) "," ++ ")")
              ++ post) := by
  refine ⟨rfl, fun up q arr h => ?_⟩
  obtain ⟨pre, hpre⟩ := ToQueryStr_Where up q c op (.ints l) arr _ h rfl (endsNonSpace_paren _)
  exact ⟨pre, _, hpre⟩

/-- C6 witness: the specification's example `Where("id","IN",[]int{1,2,3})`. -/
theorem C6_where_int_list_witness :
    whereArr (CreateQueryBuilder "t").QueryWheres = some []
    ∧ (∃ pre post, ToQueryStr id (Where (CreateQueryBuilder "t") "id" "IN" (.ints [1, 2, 3]))
        = some (pre ++ "`id` IN (1,2,3)" ++ post))
    ∧ ToQueryStr id (Where (CreateQueryBuilder "t") "id" "IN" (.ints [1, 2, 3]))
        = some "SELECT * FROM `t`  WHERE `id` IN (1,2,3)"
    ∧ whereItem ⟨"n", "NOT IN", .ints [-7, 0, 12]⟩ = some "`n` NOT IN (-7,0,12)" :=
  ⟨rfl, (C6_where_int_list "id" "IN" [1, 2, 3]).2 id (CreateQueryBuilder "t") [] rfl,
    by decide, (C6_where_int_list "n" "NOT IN" [-7, 0, 12]).1⟩

/-- C7 (as stated, refuted): the list `[1.5]` of floats renders its element as
`1.5E+00`, not as the `1.500000` the same renderer gives the scalar `1.5`; and
the list `[1]` of 64-bit integers renders nothing at all, where the scalar
renders `1`. -/
theorem C7_counterexample :
    whereItem ⟨"x", "IN", .float64 onePointFive⟩ = some ("`x` IN " ++ "1.500000")
    ∧ whereItem ⟨"x", "IN", .float64s [onePointFive]⟩
        ≠ some ("`x` IN " ++ listText ["1.500000"])
    ∧ whereItem ⟨"x", "IN", .int64 1⟩ = some ("`x` IN " ++ "1")
    ∧ whereItem ⟨"x", "IN", .int64s [1]⟩ ≠ some ("`x` IN " ++ listText ["1"]) := by
  decide

/-- C7 (amended): a list of strings and a list of ints render as the
parenthesised comma-join of exactly the texts the same renderer gives their
elements as scalars; a list of floats renders as the parenthesised comma-join
of the elements in `strconv.FormatFloat(x, 'E', -1, 64)` form, while a scalar
float is printed with `%f`. -/
theorem C7_where_list_values (c op : String) :
    (∀ l : List String, whereItem ⟨c, op, .strings l⟩
        = some ("`" ++ c ++ "` " ++ op ++ " "
            ++ listText (l.map (fun s => "'" ++ ReplaceAllString s ++ "'"))))
    ∧ (∀ s : String, whereItem ⟨c, op, .string s⟩
        = some ("`" ++ c ++ "` " ++ op ++ " " ++ ("'" ++ ReplaceAllString s ++ "'")))
    ∧ (∀ l : List Int, whereItem ⟨c, op, .ints l⟩
        = some ("`" ++ c ++ "` " ++ op ++ " " ++ listText (l.map Itoa)))
    ∧ (∀ n : Int, whereItem ⟨c, op, .int n⟩ = some ("`" ++ c ++ "` " ++ op ++ " " ++ Itoa n))
    ∧ (∀ l : List Float64, whereItem ⟨c, op, .float64s l⟩
        = some ("`" ++ c ++ "` " ++ op ++ " " ++ listText (l.map Float64.fmtE)))
    ∧ (∀ x : Float64, whereItem ⟨c, op, .float64 x⟩
        = some ("`" ++ c ++ "` " ++ op ++ " " ++ x.fmtF)) := by
  have key : ∀ rs : List String,
      "`" ++ c ++ "` " ++ op ++ " (" ++ Join rs "," ++ ")"
        = "`" ++ c ++ "` " ++ op ++ " " ++ listText rs := by
    intro rs
    unfold listText
    apply String.ext
    simp only [data_append, List.append_assoc]
    rfl
  exact ⟨fun l => congrArg some (key _), fun _ => rfl, fun l => congrArg some (key _),
    fun _ => rfl, fun l => congrArg some (key _), fun _ => rfl⟩

/-- C8: the LIMIT clause is rendered exactly when the count is positive; it is
then ` LIMIT offset, count` in decimal and ends the SELECT statement, which is
returned untrimmed; for a count of zero or less the statement is the trimmed
text of the other clauses alone, whatever the offset. -/
theorem C8_limit (q : QueryBuilder) :
    (0 < q.QueryLimit.Count →
      makeLimitStr q = " LIMIT " ++ Itoa q.QueryLimit.Offset ++ ", " ++ Itoa q.QueryLimit.Count
      ∧ ∀ up : Char → Char, ToQueryStr up q = (makeWhereStr q).map (fun w =>
          "SELECT " ++ makeFieldStr q ++ " FROM `" ++ q.Table ++ "` " ++ w ++ " "
            ++ makeGroupStr q ++ " " ++ makeOrderStr up q ++ " "
            ++ (" LIMIT " ++ Itoa q.QueryLimit.Offset ++ ", " ++ Itoa q.QueryLimit.Count)))
    ∧ (q.QueryLimit.Count ≤ 0 →
      makeLimitStr q = ""
      ∧ ∀ up : Char → Char, ToQueryStr up q = (makeWhereStr q).map (fun w =>
          Trim ("SELECT " ++ makeFieldStr q ++ " FROM `" ++ q.Table ++ "` " ++ w ++ " "
            ++ makeGroupStr q ++ " " ++ makeOrderStr up q) " ")) :=
  ⟨fun h => ⟨makeLimitStr_set q h, fun up => ToQueryStr_limit up q h⟩,
   fun h => ⟨makeLimitStr_unset q h, fun up => ToQueryStr_no_limit up q h⟩⟩

/-- C8 witness: `Limit(20, 10)` ends the statement with ` LIMIT 20, 10`, and
`Limit(20, 0)` renders no LIMIT clause. -/
theorem C8_limit_witness :
    (0 < (Limit (CreateQueryBuilder "t") 20 10).QueryLimit.Count
      ∧ makeLimitStr (Limit (CreateQueryBuilder "t") 20 10) = " LIMIT 20, 10"
      ∧ ToQueryStr id (Limit (CreateQueryBuilder "t") 20 10)
          = some "SELECT * FROM `t`     LIMIT 20, 10")
    ∧ ((Limit (CreateQueryBuilder "t") 20 0).QueryLimit.Count ≤ 0
      ∧ makeLimitStr (Limit (CreateQueryBuilder "t") 20 0) = ""
      ∧ ToQueryStr id (Limit (CreateQueryBuilder "t") 20 0) = some "SELECT * FROM `t`") :=
  ⟨⟨by decide,
     ((C8_limit (Limit (CreateQueryBuilder "t") 20 10)).1 (by decide)).1,
     ((C8_limit (Limit (CreateQueryBuilder "t") 20 10)).1 (by decide)).2 id⟩,
   ⟨by decide,
     ((C8_limit (Limit (CreateQueryBuilder "t") 20 0)).2 (by decide)).1,
     ((C8_limit (Limit (CreateQueryBuilder "t") 20 0)).2 (by decide)).2 id⟩⟩

/-- C9: when the count is positive `NextPage` sets the offset to offset + count
(Go's `int` addition: the mathematical sum whenever that fits in 64 bits) and
changes nothing else; when the count is zero or less it changes nothing at
all.  Hence after `Limit(0,10).NextPage()` the SELECT statement ends with
` LIMIT 10, 10`, and after `Limit(0,0).NextPage()` the offset is still 0 and
no LIMIT clause is rendered. -/
theorem C9_next_page (q : QueryBuilder) :
    (0 < q.QueryLimit.Count →
      NextPage q = { q with QueryLimit :=
        { Offset := wrapInt (q.QueryLimit.Offset + q.QueryLimit.Count),
          Count := q.QueryLimit.Count } }
      ∧ (-2 ^ 63 ≤ q.QueryLimit.Offset + q.QueryLimit.Count →
          q.QueryLimit.Offset + q.QueryLimit.Count < 2 ^ 63 →
          NextPage q = { q with QueryLimit :=
            { Offset := q.QueryLimit.Offset + q.QueryLimit.Count,
              Count := q.QueryLimit.Count } }))
    ∧ (q.QueryLimit.Count ≤ 0 → NextPage q = q)
    ∧ (∀ up : Char → Char, ToQueryStr up (NextPage (Limit q 0 10))
        = (makeWhereStr q).map (fun w =>
            "SELECT " ++ makeFieldStr q ++ " FROM `" ++ q.Table ++ "` " ++ w ++ " "
              ++ makeGroupStr q ++ " " ++ makeOrderStr up q ++ " " ++ " LIMIT 10, 10"))
    ∧ (NextPage (Limit q 0 0)).QueryLimit = { Offset := 0, Count := 0 }
    ∧ makeLimitStr (NextPage (Limit q 0 0)) = "" := by
  refine ⟨fun h => ⟨NextPage_pos q h, fun h1 h2 => ?_⟩, NextPage_nonpos q, fun up => ?_, rfl, rfl⟩
  · rw [NextPage_pos q h, wrapInt_of_fits _ h1 h2]
  · have hpos : 0 < (Limit q 0 10).QueryLimit.Count := by
      show (0 : Int) < 10
      decide
    have hn : NextPage (Limit q 0 10) = Limit q 10 10 := by
      rw [NextPage_pos _ hpos]
      rfl
    have ht : " LIMIT " ++ Itoa 10 ++ ", " ++ Itoa 10 = " LIMIT 10, 10" := by decide
    rw [hn, ToQueryStr_Limit up q 10 10 (by decide), ht]

/-- C9 witness: paging from `Limit(0,10)` and from `Limit(0,0)` on a fresh builder. -/
theorem C9_next_page_witness :
    (0 < (Limit (CreateQueryBuilder "t") 0 10).QueryLimit.Count
      ∧ NextPage (Limit (CreateQueryBuilder "t") 0 10) = Limit (CreateQueryBuilder "t") 10 10
      ∧ ToQueryStr id (NextPage (Limit (CreateQueryBuilder "t") 0 10))
          = some "SELECT * FROM `t`     LIMIT 10, 10")
    ∧ ((Limit (CreateQueryBuilder "t") 0 0).QueryLimit.Count ≤ 0
      ∧ NextPage (Limit (CreateQueryBuilder "t") 0 0) = Limit (CreateQueryBuilder "t") 0 0
      ∧ ToQueryStr id (NextPage (Limit (CreateQueryBuilder "t") 0 0))
          = some "SELECT * FROM `t`") :=
  ⟨⟨by decide,
     ((C9_next_page (Limit (CreateQueryBuilder "t") 0 10)).1 (by decide)).2
       (by decide) (by decide),
     (C9_next_page (CreateQueryBuilder "t")).2.2.1 id⟩,
   ⟨by decide, (C9_next_page (Limit (CreateQueryBuilder "t") 0 0)).2.1 (by decide), by decide⟩⟩

/-- C10: one `Where`, one `Group`, one `Order` and one `Limit` call applied in
any of their 24 orders give the same builder, hence the same SELECT statement,
in which the WHERE clause comes first, then GROUP BY, then ORDER BY, then
LIMIT. -/
theorem C10_call_order (q : QueryBuilder) (c op : String) (v : GoValue) (g b d : String)
    (o n : Int) (ms : List Mutation)
    (hp : ms.Perm [Mutation.where_ c op v, Mutation.group g, Mutation.order b d,
      Mutation.limit o n]) :
    ms.foldl Mutation.run q = Limit (Order (Group (Where q c op v) g) b d) o n
    ∧ (∀ up : Char → Char, ToQueryStr up (ms.foldl Mutation.run q)
        = (makeWhereStr (Where q c op v)).map (fun w =>
            Trim ("SELECT " ++ makeFieldStr q ++ " FROM `" ++ q.Table ++ "` " ++ w ++ " "
              ++ makeGroupStr (Group q g) ++ " " ++ makeOrderStr up (Order q b d) ++ " "
              ++ makeLimitStr (Limit q o n)) " "))
    ∧ (∀ (up : Char → Char) (arr : List String) (text : String),
        whereArr q.QueryWheres = some arr → whereItem ⟨c, op, v⟩ = some text → g ≠ "" → 0 < n →
        ToQueryStr up (ms.foldl Mutation.run q)
          = some ("SELECT " ++ makeFieldStr q ++ " FROM `" ++ q.Table ++ "` "
              ++ (" WHERE " ++ Join (arr ++ [text]) " AND ") ++ " "
              ++ (" GROUP BY `" ++ Replace g ',' "`,`" ++ "`") ++ " "
              ++ (" ORDER BY " ++ Join ((q.QueryOrders ++ [QueryOrder.mk b d]).map
                    (fun qo : QueryOrder => "`" ++ qo.By ++ "` " ++ ToUpper up qo.Direction)) ",") ++ " "
              ++ (" LIMIT " ++ Itoa o ++ ", " ++ Itoa n))) := by
  have hst := foldl_run_perm q c op v g b d o n ms hp
  refine ⟨hst, fun up => ?_, fun up arr text ha hw hg hn => ?_⟩
  · rw [hst]
    have e : makeWhereStr (Limit (Order (Group (Where q c op v) g) b d) o n)
        = makeWhereStr (Where q c op v) := rfl
    unfold ToQueryStr
    rw [e]
    cases makeWhereStr (Where q c op v) with
    | none => rfl
    | some w => rfl
  · rw [hst, ToQueryStr_Limit up _ o n hn]
    have e1 : makeWhereStr (Order (Group (Where q c op v) g) b d)
        = some (" WHERE " ++ Join (arr ++ [text]) " AND ") :=
      makeWhereStr_Where q c op v arr text ha hw
    have e2 : makeGroupStr (Order (Group (Where q c op v) g) b d)
        = " GROUP BY `" ++ Replace g ',' "`,`" ++ "`" := makeGroupStr_Group (Where q c op v) g hg
    have e3 : makeOrderStr up (Order (Group (Where q c op v) g) b d)
        = " ORDER BY " ++ Join ((q.QueryOrders ++ [QueryOrder.mk b d]).map
            (fun qo : QueryOrder => "`" ++ qo.By ++ "` " ++ ToUpper up qo.Direction)) "," :=
      makeOrderStr_Order up (Group (Where q c op v) g) b d
    have e4 : makeFieldStr (Order (Group (Where q c op v) g) b d) = makeFieldStr q := rfl
    rw [e1, e2, e3, e4]
    rfl

/-- C10 witness: the calls made in the order `Limit`, `Order`, `Where`, `Group`
on a fresh builder. -/
theorem C10_call_order_witness :
    ([Mutation.limit 0 10, Mutation.order "n" "desc", Mutation.where_ "id" "=" (.int 5),
        Mutation.group "a,b"] : List Mutation).Perm
      [Mutation.where_ "id" "=" (.int 5), Mutation.group "a,b", Mutation.order "n" "desc",
        Mutation.limit 0 10]
    ∧ Group (Where (Order (Limit (CreateQueryBuilder "t") 0 10) "n" "desc") "id" "=" (.int 5))
        "a,b"
      = Limit (Order (Group (Where (CreateQueryBuilder "t") "id" "=" (.int 5)) "a,b") "n" "desc")
        0 10
    ∧ ToQueryStr id (Group (Where (Order (Limit (CreateQueryBuilder "t") 0 10) "n" "desc")
        "id" "=" (.int 5)) "a,b")
      = some "SELECT * FROM `t`  WHERE `id` = 5  GROUP BY `a`,`b`  ORDER BY `n` DESC  LIMIT 0, 10" :=
  ⟨by decide,
    (C10_call_order (CreateQueryBuilder "t") "id" "=" (.int 5) "a,b" "n" "desc" 0 10
      [Mutation.limit 0 10, Mutation.order "n" "desc", Mutation.where_ "id" "=" (.int 5),
        Mutation.group "a,b"] (by decide)).1,
    (C10_call_order (CreateQueryBuilder "t") "id" "=" (.int 5) "a,b" "n" "desc" 0 10
      [Mutation.limit 0 10, Mutation.order "n" "desc", Mutation.where_ "id" "=" (.int 5),
        Mutation.group "a,b"] (by decide)).2.2 id [] "`id` = 5" rfl rfl (by decide) (by decide)⟩

/-- C12: with one or more assignments built by `Set` whose values are integers
or quote-free strings, `ToUpdateStr` is `UPDATE`, the quoted table, `SET` and
the assignments in insertion order, then a separator space and the WHERE
clause text, the very text `ToDeleteStr` and `ToQueryStr` use for the same
predicates; any builder with the same table, assignments and predicates
renders the same UPDATE, whatever its group, orderings and limit. -/
theorem C12_update (q : QueryBuilder) (sets : List QuerySet) (h0 : q.QuerySets = [])
    (hne : sets ≠ []) (hv : ∀ s ∈ sets, quoteFree s.Param = true) :
    ToUpdateStr (setAll q sets) = (makeWhereStr q).map (fun w =>
        "UPDATE `" ++ q.Table ++ "` SET " ++ Join (sets.map assignmentText) "," ++ " " ++ w)
    ∧ ToDeleteStr (setAll q sets)
        = (makeWhereStr q).map (fun w => "DELETE FROM `" ++ q.Table ++ "` " ++ w)
    ∧ (∀ up : Char → Char, ToQueryStr up (setAll q sets) = (makeWhereStr q).map (fun w =>
        Trim ("SELECT " ++ makeFieldStr q ++ " FROM `" ++ q.Table ++ "` " ++ w ++ " "
          ++ makeGroupStr q ++ " " ++ makeOrderStr up q ++ " " ++ makeLimitStr q) " "))
    ∧ (∀ b : QueryBuilder, b.Table = q.Table → b.QuerySets = sets →
        b.QueryWheres = q.QueryWheres → ToUpdateStr b = ToUpdateStr (setAll q sets)) := by
  have hset : (setAll q sets).QuerySets = sets := by
    rw [setAll_eq]
    show q.QuerySets ++ sets = sets
    rw [h0, List.nil_append]
  have hw : makeWhereStr (setAll q sets) = makeWhereStr q := by rw [setAll_eq]; rfl
  have htab : (setAll q sets).Table = q.Table := by rw [setAll_eq]
  have hmap : sets.map setItem = sets.map assignmentText :=
    List.map_congr_left (fun s hs => setItem_quoteFree s (hv s hs))
  have hlen : (sets.map assignmentText).length > 0 := by
    rw [List.length_map]
    exact List.length_pos.mpr hne
  have key : ∀ b : QueryBuilder, b.Table = q.Table → b.QuerySets = sets →
      makeWhereStr b = makeWhereStr q →
      ToUpdateStr b = (makeWhereStr q).map (fun w =>
        "UPDATE `" ++ q.Table ++ "` SET " ++ Join (sets.map assignmentText) "," ++ " " ++ w) := by
    intro b hb hs hbw
    rw [ToUpdateStr_eq, hb, hs, hbw, hmap, if_pos hlen]
    cases makeWhereStr q with
    | none => rfl
    | some w =>
      refine congrArg some ?_
      apply String.ext
      simp only [data_append, List.append_assoc]
      rfl
  refine ⟨key _ htab hset hw, ?_, fun up => ?_, fun b hb hs hbw => ?_⟩
  · rw [ToDeleteStr_eq, hw, htab]
  · rw [setAll_eq]
    unfold ToQueryStr
    show (match makeWhereStr q with
      | none => none
      | some whereStr => some (Trim ("SELECT " ++ makeFieldStr q ++ " FROM `" ++ q.Table ++ "` "
          ++ whereStr ++ " " ++ makeGroupStr q ++ " " ++ makeOrderStr up q ++ " "
          ++ makeLimitStr q) " ")) = _
    cases makeWhereStr q with
    | none => rfl
    | some w => rfl
  · have hbw' : makeWhereStr b = makeWhereStr q := by
      unfold makeWhereStr
      rw [hbw]
    rw [key b hb hs hbw', key _ htab hset hw]

/-- C12 witness: `Set("a",1).Set("b","x")` after `Where("id","=",5)` on table `t`. -/
theorem C12_update_witness :
    (Where (CreateQueryBuilder "t") "id" "=" (.int 5)).QuerySets = []
    ∧ ([⟨"a", .int 1⟩, ⟨"b", .string "x"⟩] : List QuerySet) ≠ []
    ∧ (∀ s ∈ ([⟨"a", .int 1⟩, ⟨"b", .string "x"⟩] : List QuerySet), quoteFree s.Param = true)
    ∧ ToUpdateStr (Set (Set (Where (CreateQueryBuilder "t") "id" "=" (.int 5)) "a" (.int 1))
        "b" (.string "x"))
      = some "UPDATE `t` SET `a`=1,`b`='x'  WHERE `id` = 5" :=
  ⟨rfl, by decide, by decide,
    (C12_update (Where (CreateQueryBuilder "t") "id" "=" (.int 5))
      [⟨"a", .int 1⟩, ⟨"b", .string "x"⟩] rfl (by decide) (by decide)).1⟩

/-- C13: with no assignment `ToUpdateStr` has no SET clause: it is `UPDATE`, the
quoted table, the two separator spaces and the WHERE clause text, returned as
a string whenever the WHERE clause renders; on a builder without predicates
it is `UPDATE`, the quoted table and two spaces. -/
theorem C13_update_without_set (q : QueryBuilder) (h : q.QuerySets = []) :
    ToUpdateStr q = (makeWhereStr q).map (fun w => "UPDATE `" ++ q.Table ++ "`" ++ "  " ++ w)
    ∧ (∀ w : String, makeWhereStr q = some w →
        ToUpdateStr q = some ("UPDATE `" ++ q.Table ++ "`" ++ "  " ++ w))
    ∧ (q.QueryWheres = [] → ToUpdateStr q = some ("UPDATE `" ++ q.Table ++ "`" ++ "  ")) := by
  have key : ToUpdateStr q
      = (makeWhereStr q).map (fun w => "UPDATE `" ++ q.Table ++ "`" ++ "  " ++ w) := by
    rw [ToUpdateStr_eq, h]
    cases makeWhereStr q with
    | none => rfl
    | some w =>
      refine congrArg some ?_
      apply String.ext
      simp only [data_append, List.append_assoc]
      rfl
  refine ⟨key, fun w hw => ?_, fun hq => ?_⟩
  · rw [key, hw]
    rfl
  · have hw : makeWhereStr q = some "" := by
      unfold makeWhereStr
      rw [hq]
      rfl
    rw [key, hw]
    show some ("UPDATE `" ++ q.Table ++ "`" ++ "  " ++ "") = _
    rw [String.append_empty]

/-- C13 witness: a builder on which `Set` was never called, with and without a predicate. -/
theorem C13_update_without_set_witness :
    (Where (CreateQueryBuilder "t") "id" "=" (.int 5)).QuerySets = []
    ∧ makeWhereStr (Where (CreateQueryBuilder "t") "id" "=" (.int 5)) = some " WHERE `id` = 5"
    ∧ ToUpdateStr (Where (CreateQueryBuilder "t") "id" "=" (.int 5))
        = some "UPDATE `t`   WHERE `id` = 5"
    ∧ (CreateQueryBuilder "t").QueryWheres = []
    ∧ ToUpdateStr (CreateQueryBuilder "t") = some "UPDATE `t`  " :=
  ⟨rfl, by decide,
    (C13_update_without_set (Where (CreateQueryBuilder "t") "id" "=" (.int 5)) rfl).2.1
      " WHERE `id` = 5" (by decide),
    rfl, (C13_update_without_set (CreateQueryBuilder "t") rfl).2.2 rfl⟩

/-- C14 (as stated, refuted): the boolean `true` as an INSERT addition and as an
UPDATE assignment renders as `true`, not as an empty string. -/
theorem C14_counterexample :
    ToInsertStr (Add (CreateQueryBuilder "t") "c" (.other "true"))
      = "INSERT INTO `t` (`c`) VALUES(true)"
    ∧ ToInsertStr (Add (CreateQueryBuilder "t") "c" (.other "true"))
      ≠ "INSERT INTO `t` (`c`) VALUES()"
    ∧ ToUpdateStr (Set (CreateQueryBuilder "t") "c" (.other "true"))
      = some "UPDATE `t` SET `c`=true "
    ∧ ToUpdateStr (Set (CreateQueryBuilder "t") "c" (.other "true"))
      ≠ some "UPDATE `t` SET `c`= " := by
  decide

/-- C14 (amended): a value of an unsupported kind makes its whole WHERE
predicate, column and operator included, render as the empty string; as an
INSERT addition and as an UPDATE assignment it renders as the text `%v` prints
for it. -/
theorem C14_unsupported_value (c op v : String) :
    whereItem ⟨c, op, .other v⟩ = some ""
    ∧ (∀ t : String, makeWhereStr (Where (CreateQueryBuilder t) c op (.other v)) = some " WHERE ")
    ∧ (∀ t : String, ToInsertStr (Add (CreateQueryBuilder t) c (.other v))
        = "INSERT INTO `" ++ t ++ "` (`" ++ c ++ "`) VALUES(" ++ v ++ ")")
    ∧ (∀ t : String, ToUpdateStr (Set (CreateQueryBuilder t) c (.other v))
        = some ("UPDATE `" ++ t ++ "` SET `" ++ c ++ "`=" ++ v ++ " ")) := by
  refine ⟨rfl, fun t => rfl, fun t => ?_, fun t => ?_⟩
  · show "INSERT INTO `" ++ t ++ "` (" ++ ("`" ++ c ++ "`") ++ ") VALUES(" ++ v ++ ")" = _
    apply String.ext
    simp only [data_append, List.append_assoc]
    rfl
  · show some ("UPDATE `" ++ t ++ "` " ++ ("SET " ++ ("`" ++ c ++ "`=" ++ v)) ++ " " ++ "") = _
    refine congrArg some ?_
    apply String.ext
    simp only [data_append, List.append_assoc]
    rfl

/-- C18: for a non-empty group-by string `g` the clause built by replacing every
comma by backtick, comma, backtick between two backticks is ` GROUP BY `
followed by the comma-join of the backtick-quoted parts of `g` split on the
comma (parts that hold no comma and that, joined by commas, give `g` back);
for the empty string no clause is produced. -/
theorem C18_group_by (q : QueryBuilder) (g : String) :
    (g ≠ "" → makeGroupStr (Group q g)
        = " GROUP BY " ++ Join ((Split g ',').map quoteIdent) ",")
    ∧ makeGroupStr (Group q "") = ""
    ∧ Join (Split g ',') "," = g
    ∧ (∀ p ∈ Split g ',', ',' ∉ p.data) := by
  refine ⟨fun h => ?_, rfl, Join_Split g, splitRunes_no_sep [] g.data (by simp)⟩
  rw [makeGroupStr_Group q g h, ← groupText_eq]
  simp only [String.append_assoc]
  apply String.ext
  simp only [data_append, List.append_assoc]
  rfl

/-- C18 witness: grouping by `a,b`. -/
theorem C18_group_by_witness :
    ("a,b" : String) ≠ ""
    ∧ makeGroupStr (Group (CreateQueryBuilder "t") "a,b") = " GROUP BY `a`,`b`" :=
  ⟨by decide, (C18_group_by (CreateQueryBuilder "t") "a,b").1 (by decide)⟩

/-- C19: a predicate with a string or integer value added to a builder that has
predicates extends the WHERE clause by ` AND ` and its text; added to a
builder without predicates it gives ` WHERE ` and its text; without any
predicate the clause is empty.  The rendered items are the earlier ones, in
their order, followed by the new one. -/
theorem C19_where_and (q : QueryBuilder) (c op : String) (v : GoValue)
    (hv : intOrString v = true) :
    (q.QueryWheres ≠ [] → makeWhereStr (Where q c op v)
        = (makeWhereStr q).map (fun w => w ++ " AND " ++ predicateText ⟨c, op, v⟩))
    ∧ (q.QueryWheres = [] → makeWhereStr (Where q c op v)
        = some (" WHERE " ++ predicateText ⟨c, op, v⟩))
    ∧ (q.QueryWheres = [] → makeWhereStr q = some "")
    ∧ whereArr (Where q c op v).QueryWheres
        = (whereArr q.QueryWheres).map (fun arr => arr ++ [predicateText ⟨c, op, v⟩]) := by
  have hi : whereItem ⟨c, op, v⟩ = some (predicateText ⟨c, op, v⟩) :=
    whereItem_intOrString ⟨c, op, v⟩ hv
  have harr : whereArr (Where q c op v).QueryWheres
      = (whereArr q.QueryWheres).map (fun arr => arr ++ [predicateText ⟨c, op, v⟩]) := by
    show whereArr (q.QueryWheres ++ [⟨c, op, v⟩]) = _
    cases h : whereArr q.QueryWheres with
    | none => rw [whereArr_append_none _ _ h]; rfl
    | some arr => rw [whereArr_append_singleton _ _ arr _ h hi]; rfl
  refine ⟨fun hne => ?_, fun he => ?_, fun he => ?_, harr⟩
  · unfold makeWhereStr
    rw [harr]
    cases h : whereArr q.QueryWheres with
    | none => rfl
    | some arr =>
      have hlen := whereArr_length _ _ h
      have hne' : arr ≠ [] := by
        intro e
        rw [e] at hlen
        exact hne (List.length_eq_zero.mp hlen.symm)
      have hpos : arr.length > 0 := List.length_pos.mpr hne'
      show some (if (arr ++ [predicateText ⟨c, op, v⟩]).length > 0
          then " WHERE " ++ Join (arr ++ [predicateText ⟨c, op, v⟩]) " AND " else "")
        = some ((if arr.length > 0 then " WHERE " ++ Join arr " AND " else "")
            ++ " AND " ++ predicateText ⟨c, op, v⟩)
      rw [if_pos (by simp), if_pos hpos, Join_append_singleton_ne _ _ _ hne']
      simp only [String.append_assoc]
  · have h0 : whereArr q.QueryWheres = some [] := by rw [he]; rfl
    rw [makeWhereStr_Where q c op v [] _ h0 hi]
    rfl
  · unfold makeWhereStr
    rw [he]
    rfl

/-- C19 witness: a second and a first predicate, and a builder without predicates. -/
theorem C19_where_and_witness :
    intOrString (.string "O'Brien") = true
    ∧ (Where (CreateQueryBuilder "t") "id" "=" (.int 5)).QueryWheres ≠ []
    ∧ makeWhereStr (Where (Where (CreateQueryBuilder "t") "id" "=" (.int 5))
        "name" "=" (.string "O'Brien"))
      = some " WHERE `id` = 5 AND `name` = 'O\\'Brien'"
    ∧ (CreateQueryBuilder "t").QueryWheres = []
    ∧ makeWhereStr (Where (CreateQueryBuilder "t") "name" "=" (.string "O'Brien"))
      = some " WHERE `name` = 'O\\'Brien'"
    ∧ makeWhereStr (CreateQueryBuilder "t") = some "" :=
  ⟨rfl, by decide,
    (C19_where_and (Where (CreateQueryBuilder "t") "id" "=" (.int 5)) "name" "="
      (.string "O'Brien") rfl).1 (by decide),
    rfl,
    (C19_where_and (CreateQueryBuilder "t") "name" "=" (.string "O'Brien") rfl).2.1 rfl,
    (C19_where_and (CreateQueryBuilder "t") "name" "=" (.string "O'Brien") rfl).2.2.1 rfl⟩

/-- C20: for the orderings built by `Order` the ORDER BY clause is empty when
there is none, and otherwise ` ORDER BY ` followed by the items, quoted column,
space and upper-cased direction, joined by commas in insertion order; the
direction is upper-cased (an ASCII direction rune by rune) and emitted whatever
it is, the empty text included. -/
theorem C20_order_by (up : Char → Char) (q : QueryBuilder) (os : List QueryOrder)
    (h0 : q.QueryOrders = []) :
    (os = [] → makeOrderStr up (orderAll q os) = "")
    ∧ (os ≠ [] → makeOrderStr up (orderAll q os)
        = " ORDER BY " ++ Join (os.map (fun o : QueryOrder =>
            "`" ++ o.By ++ "` " ++ ToUpper up o.Direction)) ",")
    ∧ (∀ d : String, d.data.all (fun c => decide (c.toNat < 128)) = true →
        ToUpper up d = String.mk (d.data.map asciiUpper))
    ∧ (∀ b : String, makeOrderStr up (Order q b "") = " ORDER BY `" ++ b ++ "` ") := by
  have hos : (orderAll q os).QueryOrders = os := by
    rw [orderAll_eq]
    show q.QueryOrders ++ os = os
    rw [h0, List.nil_append]
  refine ⟨fun he => ?_, fun hne => ?_, fun d hd => ?_, fun b => ?_⟩
  · exact makeOrderStr_unset up _ (by rw [hos, he])
  · unfold makeOrderStr
    rw [hos]
    exact if_pos (by rw [List.length_map]; exact List.length_pos.mpr hne)
  · unfold ToUpper
    rw [if_pos hd]
  · rw [makeOrderStr_Order, h0]
    show " ORDER BY " ++ ("`" ++ b ++ "` " ++ ToUpper up "") = _
    have hu : ToUpper up "" = "" := rfl
    rw [hu]
    apply String.ext
    simp only [data_append, List.append_assoc]
    rfl

/-- C20 witness: `Order("a","desc").Order("b","")` and a builder without orderings. -/
theorem C20_order_by_witness :
    (CreateQueryBuilder "t").QueryOrders = []
    ∧ makeOrderStr id (CreateQueryBuilder "t") = ""
    ∧ ([⟨"a", "desc"⟩, ⟨"b", ""⟩] : List QueryOrder) ≠ []
    ∧ makeOrderStr id (Order (Order (CreateQueryBuilder "t") "a" "desc") "b" "")
        = " ORDER BY `a` DESC,`b` "
    ∧ ("desc" : String).data.all (fun c => decide (c.toNat < 128)) = true
    ∧ ToUpper id "desc" = "DESC" :=
  ⟨rfl, (C20_order_by id (CreateQueryBuilder "t") [] rfl).1 rfl, by decide,
    (C20_order_by id (CreateQueryBuilder "t") [⟨"a", "desc"⟩, ⟨"b", ""⟩] rfl).2.1 (by decide),
    by decide,
    (C20_order_by id (CreateQueryBuilder "t") [] rfl).2.2.1 "desc" (by decide)⟩

/-- C11 (as stated, refuted): the fields string `*` renders as `*`, not as the
quoted item the rule gives; and the item `(a+b)`, which contains a parenthesis
as its first character, is quoted instead of being passed through. -/
theorem C11_counterexample :
    makeFieldStr (Fields (CreateQueryBuilder "t") "*") = "*"
    ∧ makeFieldStr (Fields (CreateQueryBuilder "t") "*")
        ≠ Join ((Split "*" ',').map fieldItemSpec) ","
    ∧ makeFieldStr (Fields (CreateQueryBuilder "t") "(a+b),c") = "`(a+b)`,`c`"
    ∧ Join ((Split "(a+b),c" ',').map fieldItemSpec) "," = "(a+b),`c`"
    ∧ makeFieldStr (Fields (CreateQueryBuilder "t") "(a+b),c")
        ≠ Join ((Split "(a+b),c" ',').map fieldItemSpec) "," := by
  decide

/-- C11 (amended): the SELECT field list is `*` when the fields string is empty
or is `*`; otherwise, when no comma-separated item begins with an opening
parenthesis, it is the comma-join of the items, every item that contains a
parenthesis passed through unchanged and every other item wrapped in
backticks. -/
theorem C11_field_list (q : QueryBuilder) :
    (q.QueryFields = "" ∨ q.QueryFields = "*" → makeFieldStr q = "*")
    ∧ (q.QueryFields ≠ "" → q.QueryFields ≠ "*" →
        (∀ item ∈ Split q.QueryFields ',', startsWithParen item = false) →
        makeFieldStr q = Join ((Split q.QueryFields ',').map fieldItemSpec) ",")
    ∧ Join (Split q.QueryFields ',') "," = q.QueryFields := by
  refine ⟨fun h => ?_, fun h1 h2 hp => ?_, Join_Split _⟩
  · rcases h with h | h
    · exact makeFieldStr_unset q h
    · exact makeFieldStr_star q h
  · rw [makeFieldStr_set q h1 h2]
    congr 1
    exact List.map_congr_left (fun item hi => fieldItem_eq item (hp item hi))

/-- C11 witness: a field list with a plain column and a function call, and the
two spellings of the default. -/
theorem C11_field_list_witness :
    ((Fields (CreateQueryBuilder "t") "*").QueryFields = ""
        ∨ (Fields (CreateQueryBuilder "t") "*").QueryFields = "*")
    ∧ makeFieldStr (Fields (CreateQueryBuilder "t") "*") = "*"
    ∧ (Fields (CreateQueryBuilder "t") "id,count(x)").QueryFields ≠ ""
    ∧ (Fields (CreateQueryBuilder "t") "id,count(x)").QueryFields ≠ "*"
    ∧ (∀ item ∈ Split (Fields (CreateQueryBuilder "t") "id,count(x)").QueryFields ',',
        startsWithParen item = false)
    ∧ makeFieldStr (Fields (CreateQueryBuilder "t") "id,count(x)") = "`id`,count(x)" :=
  ⟨Or.inr rfl, (C11_field_list (Fields (CreateQueryBuilder "t") "*")).1 (Or.inr rfl),
    by decide, by decide, by decide,
    (C11_field_list (Fields (CreateQueryBuilder "t") "id,count(x)")).2.1
      (by decide) (by decide) (by decide)⟩

/-- C17: a builder with no predicates, no group, no orderings, a count of zero
or less and the fields unset or set to `*` renders exactly `SELECT * FROM` and
the quoted table; and whatever the builder, a statement `ToQueryStr` returns
(it returns exactly when the WHERE clause renders) neither begins nor ends
with a space. -/
theorem C17_select_trimmed (up : Char → Char) (q : QueryBuilder) :
    (q.QueryWheres = [] → q.QueryGroup = "" → q.QueryOrders = [] → q.QueryLimit.Count ≤ 0 →
        (q.QueryFields = "" ∨ q.QueryFields = "*") →
        ToQueryStr up q = some ("SELECT * FROM `" ++ q.Table ++ "`"))
    ∧ (∀ r : String, ToQueryStr up q = some r → StartsNonSpace r ∧ EndsNonSpace r)
    ∧ (ToQueryStr up q).isSome = (makeWhereStr q).isSome := by
  refine ⟨fun hw hg ho hl hf => ?_, ToQueryStr_trimmed up q, ToQueryStr_isSome up q⟩
  have hf' : makeFieldStr q = "*" := by
    rcases hf with h | h
    · exact makeFieldStr_unset q h
    · exact makeFieldStr_star q h
  have hws : makeWhereStr q = some "" := by
    unfold makeWhereStr
    rw [hw]
    rfl
  rw [ToQueryStr_eq, hws, hf', makeGroupStr_unset q hg, makeOrderStr_unset up q ho,
    makeLimitStr_unset q hl]
  refine congrArg some ?_
  beta_reduce
  have ht : TrimRight (" " ++ "" ++ " " ++ "" ++ " " ++ "" ++ " " ++ "") " " = "" := by decide
  rw [ht, String.append_empty]
  apply String.ext
  simp only [data_append, List.append_assoc]
  rfl

/-- C17 witness: a fresh builder, a builder with every clause, and a builder
whose last clause ends in a space. -/
theorem C17_select_trimmed_witness :
    ((CreateQueryBuilder "t").QueryWheres = [] ∧ (CreateQueryBuilder "t").QueryGroup = ""
      ∧ (CreateQueryBuilder "t").QueryOrders = [] ∧ (CreateQueryBuilder "t").QueryLimit.Count ≤ 0
      ∧ ((CreateQueryBuilder "t").QueryFields = "" ∨ (CreateQueryBuilder "t").QueryFields = "*"))
    ∧ ToQueryStr id (CreateQueryBuilder "t") = some "SELECT * FROM `t`"
    ∧ ToQueryStr id (Order (CreateQueryBuilder "t") "a" "") = some "SELECT * FROM `t`    ORDER BY `a`"
    ∧ (StartsNonSpace "SELECT * FROM `t`    ORDER BY `a`"
        ∧ EndsNonSpace "SELECT * FROM `t`    ORDER BY `a`") :=
  ⟨⟨rfl, rfl, rfl, by decide, Or.inl rfl⟩,
    (C17_select_trimmed id (CreateQueryBuilder "t")).1 rfl rfl rfl (by decide) (Or.inl rfl),
    by decide,
    (C17_select_trimmed id (Order (CreateQueryBuilder "t") "a" "")).2.1
      "SELECT * FROM `t`    ORDER BY `a`" (by decide)⟩

/-- C16: when the name is already bound, `InitDbConnection` with that name and
any connection source, pool parameters and collaborator answers returns no
error and the very same registry, so `GetDb` still returns the connection that
was bound first. -/
theorem C16_registry_first_wins (dbConnMap : Registry) (name : String) (conn : DbConnection)
    (h : dbConnMap name = some conn) (dbSource : String) (maxConn maxIdle lifeTime : Int)
    (openErr pingErr : Option String) :
    InitDbConnection dbConnMap name dbSource maxConn maxIdle lifeTime openErr pingErr
      = (dbConnMap, none)
    ∧ GetDb (InitDbConnection dbConnMap name dbSource maxConn maxIdle lifeTime
        openErr pingErr).1 name = some conn := by
  have e : InitDbConnection dbConnMap name dbSource maxConn maxIdle lifeTime openErr pingErr
      = (dbConnMap, none) := by
    unfold InitDbConnection
    rw [h]
  rw [e]
  exact ⟨rfl, h⟩

/-- C16 witness: `default` is initialised with a pool of 10, then again with
another source and a pool of 99; the first connection stays. -/
theorem C16_registry_first_wins_witness :
    (InitDbConnection emptyRegistry "default" "dsn1" 10 5 60 none none).1 "default"
      = some { Name := "default",
               DbMap := { Source := "dsn1", MaxOpenConns := 10, MaxIdleConns := 5,
                          ConnMaxLifetime := 60000000000 } }
    ∧ InitDbConnection (InitDbConnection emptyRegistry "default" "dsn1" 10 5 60 none none).1
        "default" "dsn2" 99 9 1 none none
      = ((InitDbConnection emptyRegistry "default" "dsn1" 10 5 60 none none).1, none)
    ∧ GetDb (InitDbConnection
        (InitDbConnection emptyRegistry "default" "dsn1" 10 5 60 none none).1
        "default" "dsn2" 99 9 1 none none).1 "default"
      = some { Name := "default",
               DbMap := { Source := "dsn1", MaxOpenConns := 10, MaxIdleConns := 5,
                          ConnMaxLifetime := 60000000000 } } :=
  ⟨by decide,
    (C16_registry_first_wins (InitDbConnection emptyRegistry "default" "dsn1" 10 5 60 none none).1
      "default"
      { Name := "default",
        DbMap := { Source := "dsn1", MaxOpenConns := 10, MaxIdleConns := 5,
                   ConnMaxLifetime := 60000000000 } }
      (by decide) "dsn2" 99 9 1 none none).1,
    (C16_registry_first_wins (InitDbConnection emptyRegistry "default" "dsn1" 10 5 60 none none).1
      "default"
      { Name := "default",
        DbMap := { Source := "dsn1", MaxOpenConns := 10, MaxIdleConns := 5,
                   ConnMaxLifetime := 60000000000 } }
      (by decide) "dsn2" 99 9 1 none none).2⟩

/-- C15 (as stated, refuted): the integer predicate `id = 5` comes back from the
token with a float value and renders `5.000000`; the list predicate
`id IN (1,2)` comes back with a `[]interface{}` value and renders nothing; a
builder holding the float NaN has no token at all; the integer addition
`1000000` comes back as a float and renders `1e+06`; the string of the single
byte `0xFF`, which is not valid UTF-8, comes back as U+FFFD; and the `int32`
value `5`, an unsupported kind that renders nothing in a predicate, comes back
as a float and renders `5.000000`.  The last line is why a list needs an
element: an empty list may be a nil slice, printed `[]`, which is written
`null` and comes back as `nil`, printed `<nil>`. -/
theorem C15_counterexample :
    (∀ lib : JsonLib,
      (roundTrip lib (Where (CreateQueryBuilder "t") "id" "=" (.int 5))).map (ToQueryStr id)
        = some (some "SELECT * FROM `t`  WHERE `id` = 5.000000"))
    ∧ ToQueryStr id (Where (CreateQueryBuilder "t") "id" "=" (.int 5))
        = some "SELECT * FROM `t`  WHERE `id` = 5"
    ∧ (∀ lib : JsonLib,
      (roundTrip lib (Where (CreateQueryBuilder "t") "id" "IN" (.ints [1, 2]))).map ToDeleteStr
        = some (some "DELETE FROM `t`  WHERE "))
    ∧ ToDeleteStr (Where (CreateQueryBuilder "t") "id" "IN" (.ints [1, 2]))
        = some "DELETE FROM `t`  WHERE `id` IN (1,2)"
    ∧ (∀ lib : JsonLib,
      Serialize lib (Where (CreateQueryBuilder "t") "x" "=" (.float64 notANumber)) = none)
    ∧ (∀ lib : JsonLib,
      (roundTrip lib (Add (CreateQueryBuilder "t") "n" (.int 1000000))).map ToInsertStr
        = some "INSERT INTO `t` (`n`) VALUES(1e+06)")
    ∧ ToInsertStr (Add (CreateQueryBuilder "t") "n" (.int 1000000))
        = "INSERT INTO `t` (`n`) VALUES(1000000)"
    ∧ encodeRunes (utf8Coerce [255]).data = [239, 191, 189]
    ∧ (roundTrip exampleLib (Where (CreateQueryBuilder "t") "c" "=" (.other "5"))).map ToDeleteStr
        = some (some "DELETE FROM `t`  WHERE `c` = 5.000000")
    ∧ ToDeleteStr (Where (CreateQueryBuilder "t") "c" "=" (.other "5"))
        = some "DELETE FROM `t`  WHERE "
    ∧ valueText (.strings []) = "[]" ∧ valueText (.other "<nil>") = "<nil>" := by
  refine ⟨fun lib => ?_, by decide, fun lib => ?_, by decide, fun lib => ?_, fun lib => ?_,
    by decide, by decide, by decide, by decide, by decide, by decide⟩
  · rw [roundTrip_eq lib _ (fun _ h => absurd h (List.not_mem_nil _))
      (fun _ h => absurd h (List.not_mem_nil _))
      (fun w h => by
        rw [List.mem_singleton.mp h]
        exact ⟨_, rfl⟩)]
    rfl
  · rw [roundTrip_eq lib _ (fun _ h => absurd h (List.not_mem_nil _))
      (fun _ h => absurd h (List.not_mem_nil _))
      (fun w h => by
        rw [List.mem_singleton.mp h]
        exact ⟨_, rfl⟩)]
    rfl
  · rfl
  · rw [roundTrip_eq lib _
      (fun a h => by
        rw [List.mem_singleton.mp h]
        exact ⟨_, rfl⟩)
      (fun _ h => absurd h (List.not_mem_nil _))
      (fun _ h => absurd h (List.not_mem_nil _))]
    rfl

/-- C15 (amended): for every builder whose predicate values are strings or
finite floats and whose addition and assignment values are strings, finite
floats, integers below 10^6 in magnitude or lists with at least one element of
these (a value of an unsupported kind being admitted where what comes back for
it renders as it did), `Serialize` succeeds and `UnserializeQueryBuilder` of
the token returns, with no error, a builder whose four renderings are those of
the original; the strings of the builder, being valid UTF-8, come back
unchanged. -/
theorem C15_round_trip (lib : JsonLib) (q : QueryBuilder)
    (ha : ∀ a ∈ q.QueryAdds, setTrips lib a.Param = true)
    (hs : ∀ a ∈ q.QuerySets, setTrips lib a.Param = true)
    (hw : ∀ w ∈ q.QueryWheres, whereTrips lib w.Param = true) :
    (∃ (str : Token) (b : QueryBuilder),
      Serialize lib q = some str ∧ UnserializeQueryBuilder lib str = some b
      ∧ (∀ up : Char → Char, ToQueryStr up b = ToQueryStr up q)
      ∧ ToInsertStr b = ToInsertStr q ∧ ToUpdateStr b = ToUpdateStr q
      ∧ ToDeleteStr b = ToDeleteStr q
      ∧ b.Table = q.Table ∧ b.QueryFields = q.QueryFields ∧ b.QueryGroup = q.QueryGroup
      ∧ b.QueryOrders = q.QueryOrders ∧ b.QueryLimit = q.QueryLimit)
    ∧ (∀ s : String, utf8Coerce (encodeRunes s.data) = s) := by
  refine ⟨?_, jsonStringTrip_id⟩
  obtain ⟨str, h1, h2⟩ := roundTrip_tripBuilder lib q
    (fun a h => (setTrips_marshal lib a.Param (ha a h)).imp (fun _ hj => hj.1))
    (fun a h => (setTrips_marshal lib a.Param (hs a h)).imp (fun _ hj => hj.1))
    (fun w h => (whereTrips_marshal lib w.Param (hw w h)).imp (fun _ hj => hj.1))
  exact ⟨str, tripBuilder lib q, h1, h2, fun up => ToQueryStr_tripBuilder lib up q hw,
    ToInsertStr_tripBuilder lib q ha, ToUpdateStr_tripBuilder lib q hs hw,
    ToDeleteStr_tripBuilder lib q hw, rfl, rfl, rfl, rfl, rfl⟩

/-- C15 witness: a builder with a string, a small integer and a list among its
additions, a string and a boolean among its assignments, and a string and a
float predicate. -/
theorem C15_round_trip_witness :
    (∀ a ∈ (Where (Where (Set (Set (Add (Add (Add (CreateQueryBuilder "t") "a" (.string "x"))
        "n" (.int 5)) "l" (.ints [1, 2])) "b" (.string "it's")) "ok" (.other "true"))
        "name" "=" (.string "O'Brien")) "r" ">" (.float64 onePointFive)).QueryAdds,
        setTrips exampleLib a.Param = true)
    ∧ (∀ a ∈ (Where (Where (Set (Set (Add (Add (Add (CreateQueryBuilder "t") "a" (.string "x"))
        "n" (.int 5)) "l" (.ints [1, 2])) "b" (.string "it's")) "ok" (.other "true"))
        "name" "=" (.string "O'Brien")) "r" ">" (.float64 onePointFive)).QuerySets,
        setTrips exampleLib a.Param = true)
    ∧ (∀ w ∈ (Where (Where (Set (Set (Add (Add (Add (CreateQueryBuilder "t") "a" (.string "x"))
        "n" (.int 5)) "l" (.ints [1, 2])) "b" (.string "it's")) "ok" (.other "true"))
        "name" "=" (.string "O'Brien")) "r" ">" (.float64 onePointFive)).QueryWheres,
        whereTrips exampleLib w.Param = true)
    ∧ ∃ (str : Token) (b : QueryBuilder),
      Serialize exampleLib
        (Where (Where (Set (Set (Add (Add (Add (CreateQueryBuilder "t") "a" (.string "x"))
          "n" (.int 5)) "l" (.ints [1, 2])) "b" (.string "it's")) "ok" (.other "true"))
          "name" "=" (.string "O'Brien")) "r" ">" (.float64 onePointFive))
        = some str
      ∧ UnserializeQueryBuilder exampleLib str = some b
      ∧ ToInsertStr b = "INSERT INTO `t` (`a`,`n`,`l`) VALUES('x',5,[1 2])"
      ∧ ToUpdateStr b
        = some "UPDATE `t` SET `b`='it\\'s',`ok`=true  WHERE `name` = 'O\\'Brien' AND `r` > 1.500000" :=
  ⟨by decide, by decide, by decide,
    match (C15_round_trip exampleLib
      (Where (Where (Set (Set (Add (Add (Add (CreateQueryBuilder "t") "a" (.string "x"))
        "n" (.int 5)) "l" (.ints [1, 2])) "b" (.string "it's")) "ok" (.other "true"))
        "name" "=" (.string "O'Brien")) "r" ">" (.float64 onePointFive))
      (by decide) (by decide) (by decide)).1 with
    | ⟨str, b, h1, h2, _, h4, h5, _⟩ =>
      ⟨str, b, h1, h2, by rw [h4]; decide, by rw [h5]; decide⟩⟩

end DbHelper
